import Mathlib

/-!
Verification of the tiktok-influencer-scraper core against its specification.

The Python sources are shallowly embedded: Python dicts become association
lists (`List (String × β)`) with Python's insertion-order update semantics,
Python sets become duplicate-free lists grown by insert-if-absent, wall-clock
times become rationals, and the CDP network-event handlers become a step
function over an explicit monitor state.
-/

namespace TikTokScraper

/-! ## Python dict / set model -/

/-- `d[k]` lookup in a Python dict modelled as an association list. -/
def dlookup (k : String) : List (String × β) → Option β
  | [] => none
  | (k', v) :: rest => if k' = k then some v else dlookup k rest

/-- `k in d` membership test. -/
def dmem (k : String) (d : List (String × β)) : Bool :=
  (dlookup k d).isSome

/-- `d[k] = v` assignment: updates an existing key in place (Python dicts keep
the original insertion position), otherwise appends the new binding. -/
def dinsert (k : String) (v : β) : List (String × β) → List (String × β)
  | [] => [(k, v)]
  | (k', v') :: rest => if k' = k then (k', v) :: rest else (k', v') :: dinsert k v rest

/-- Python `set.add`: insert-if-absent. -/
def sadd (x : String) (s : List String) : List String :=
  if x ∈ s then s else s ++ [x]

@[simp] theorem dlookup_nil (k : String) : dlookup k ([] : List (String × β)) = none := rfl

theorem dlookup_cons (k k' : String) (v : β) (d : List (String × β)) :
    dlookup k ((k', v) :: d) = if k' = k then some v else dlookup k d := rfl

@[simp] theorem dlookup_dinsert_self (k : String) (v : β) (d : List (String × β)) :
    dlookup k (dinsert k v d) = some v := by
  induction d with
  | nil => simp [dinsert, dlookup]
  | cons hd tl ih =>
    obtain ⟨k', v'⟩ := hd
    by_cases h : k' = k
    · simp [dinsert, dlookup, h]
    · simp [dinsert, dlookup, h, ih]

theorem dlookup_dinsert_ne (k k' : String) (v : β) (d : List (String × β)) (h : k ≠ k') :
    dlookup k' (dinsert k v d) = dlookup k' d := by
  induction d with
  | nil => simp [dinsert, dlookup, h]
  | cons hd tl ih =>
    obtain ⟨k'', v''⟩ := hd
    by_cases h2 : k'' = k
    · subst h2
      simp [dinsert, dlookup, h]
    · simp [dinsert, dlookup, h2, ih]

theorem mem_sadd (x y : String) (s : List String) :
    y ∈ sadd x s ↔ y = x ∨ y ∈ s := by
  unfold sadd
  by_cases h : x ∈ s
  · simp only [if_pos h]
    constructor
    · exact Or.inr
    · rintro (rfl | hy)
      · exact h
      · exact hy
  · simp [if_neg h, List.mem_append, or_comm]

theorem dlookup_append (k : String) (d1 d2 : List (String × β)) :
    dlookup k (d1 ++ d2) = ((dlookup k d1).orElse fun _ => dlookup k d2) := by
  induction d1 with
  | nil => simp [dlookup, Option.orElse]
  | cons hd tl ih =>
    obtain ⟨k', v⟩ := hd
    by_cases h : k' = k
    · simp [dlookup, h, Option.orElse]
    · simp [dlookup, h, ih]

/-! ## Workflow resume-point computation
(`UnifiedTikTokScraper._determine_resume_point`, unified_scraper.py:296-331) -/

/-- Metadata stored per processed hashtag in `hashtags_data`
(only its presence matters to resume-point computation). -/
structure HashtagMeta where
  profiles_found : Nat := 0
  deriving Repr, DecidableEq

/-- The slice of a restored profile record consulted on resume:
`posts_count` may be absent (`none`) or present with a value. -/
structure ProfileRecord where
  posts_count : Option Int := none
  deriving Repr, DecidableEq

/-- A stored post record; resume-point computation uses only its key. -/
structure PostRecord where
  desc : String := ""
  deriving Repr, DecidableEq

/-- The restored workflow data consulted by `_determine_resume_point`. -/
structure WorkflowData where
  hashtags_data : List (String × HashtagMeta) := []
  profiles_data : List (String × ProfileRecord) := []
  posts_data : List (String × PostRecord) := []
  post_to_comments : List (String × List String) := []
  deriving Repr

/-- `'posts_count' not in profile_data or profile_data.get('posts_count', 0) == 0`. -/
def profileNeedsPosts (p : ProfileRecord) : Bool :=
  p.posts_count = none || p.posts_count.getD 0 = 0

/-- `post_id not in self.post_to_comments or len(self.post_to_comments[post_id]) == 0`. -/
def postNeedsComments (d : WorkflowData) (postId : String) : Bool :=
  !(dmem postId d.post_to_comments) || ((dlookup postId d.post_to_comments).getD []).length = 0

/-- `UnifiedTikTokScraper._determine_resume_point`: scans restored state and
returns `(phase, items_to_process, start_index)`. -/
def determineResumePoint (d : WorkflowData) (originalHashtags : List String) :
    String × List String × Nat :=
  let hashtagsToProcess := originalHashtags.filter fun h => !(dmem h d.hashtags_data)
  if !hashtagsToProcess.isEmpty then
    ("search", hashtagsToProcess, 0)
  else
    let profilesNeedingPosts := (d.profiles_data.filter fun p => profileNeedsPosts p.2).map (·.1)
    if !profilesNeedingPosts.isEmpty then
      ("profiles", profilesNeedingPosts, 0)
    else
      let postsNeedingComments := (d.posts_data.filter fun p => postNeedsComments d p.1).map (·.1)
      if !postsNeedingComments.isEmpty then
        ("comments", postsNeedingComments, 0)
      else
        ("complete", [], 0)

/-! ## Session time budget (`SessionState`, unified_schemas.py:119-165)

Wall-clock times are modelled as rationals (seconds). -/

/-- Python `int()` applied to a float/rational: truncation toward zero. -/
def pyTrunc (x : ℚ) : ℤ :=
  if 0 ≤ x then ⌊x⌋ else ⌈x⌉

/-- The timing slice of `SessionState` (unified_schemas.py:119-126). -/
structure SessionState where
  session_start_time : ℚ
  session_duration_limit : ℚ
  grace_period_start : Option ℚ := none
  should_stop : Bool := false
  deriving Repr, DecidableEq

/-- `SessionState.time_remaining`: `max(0, int(self.session_duration_limit - elapsed))`. -/
def timeRemaining (st : SessionState) (now : ℚ) : ℤ :=
  max 0 (pyTrunc (st.session_duration_limit - (now - st.session_start_time)))

/-- `SessionState.should_continue` at wall-clock time `now`; returns the
result and the (possibly mutated) state, since entering the grace period
records `grace_period_start := now`. The 60-second grace window is hardcoded
in the method body. -/
def shouldContinue (st : SessionState) (now : ℚ) : Bool × SessionState :=
  if st.should_stop then (false, st)
  else
    let timeLeft := timeRemaining st now
    match st.grace_period_start with
    | some g => (decide (now - g < 60), st)
    | none =>
      if timeLeft ≤ 0 then
        (true, { st with grace_period_start := some now })
      else (true, st)

/-! ## Account pool and cooldown (`BaseAuth`, AbstractAuthentication.py)

Accounts are dict records; `isWorking` defaults to true when the key is
absent (`account.get('isWorking', True)`) and `lastFailure` is an ISO
timestamp, modelled as a rational wall-clock time, absent unless set. -/

structure Account where
  username : String
  password : String := ""
  isWorking : Option Bool := none
  lastFailure : Option ℚ := none
  deriving Repr, DecidableEq

/-- `self.cooldown_period = timedelta(minutes=10)`, in seconds. -/
def cooldownPeriod : ℚ := 600

/-- The loop body of `BaseAuth.get_working_accounts` (lines 70-78): keep an
account iff `isWorking` (default true) holds and it is not inside the
cooldown window measured from `lastFailure`. -/
def accountAvailable (now : ℚ) (a : Account) : Bool :=
  if a.isWorking.getD true then
    match a.lastFailure with
    | some t => if now - t < cooldownPeriod then false else true
    | none => true
  else false

/-- `BaseAuth.get_working_accounts` at wall-clock time `now`. -/
def getWorkingAccounts (accounts : List Account) (now : ℚ) : List Account :=
  accounts.filter (accountAvailable now)

/-- `BaseAuth.mark_account_failed`: flags the first account with the given
username as not working and stamps `lastFailure` (the loop `break`s after the
first match). -/
def markAccountFailed (accounts : List Account) (username : String) (now : ℚ) :
    List Account :=
  match accounts with
  | [] => []
  | a :: rest =>
    if a.username = username then
      { a with isWorking := some false, lastFailure := some now } :: rest
    else a :: markAccountFailed rest username now

/-- `BaseAuth.mark_account_working`: flags the first account with the given
username as working and deletes `lastFailure`. -/
def markAccountWorking (accounts : List Account) (username : String) :
    List Account :=
  match accounts with
  | [] => []
  | a :: rest =>
    if a.username = username then
      { a with isWorking := some true, lastFailure := none } :: rest
    else a :: markAccountWorking rest username

/-- The account-pool mutations performed between reads of the pool. -/
inductive AuthOp where
  | fail (username : String) (now : ℚ)
  | work (username : String)
  deriving Repr, DecidableEq

def applyAuthOps (accounts : List Account) : List AuthOp → List Account
  | [] => accounts
  | AuthOp.fail u t :: ops => applyAuthOps (markAccountFailed accounts u t) ops
  | AuthOp.work u :: ops => applyAuthOps (markAccountWorking accounts u) ops

/-! ## Phase-scraper deduplication (claim C7)

The three phase scrapers dedupe captured items with the same loop shape:
`unique = {}; for item in all: if item.key not in unique: unique[item.key] = item`.
Entity records are modelled with their natural key plus the fields the
surrounding code reads. -/

/-- `AuthorProfile` (search_results_schemas), fields used around the dedup. -/
structure AuthorProfile where
  user_id : String
  follower_count : Int := 0
  heart_count : Int := 0
  deriving Repr, DecidableEq

/-- `PostData` (profile_loader_schemas), key field plus a payload field. -/
structure PostData where
  post_id : String
  desc : String := ""
  deriving Repr, DecidableEq

/-- `Comment` (comment_loader_schemas), key field plus a payload field. -/
structure Comment where
  cid : String
  text : String := ""
  deriving Repr, DecidableEq

/-- The shared dedup loop: walk the captured items in order, recording an
item only if its key has not been recorded yet. -/
def dedupFirstLoop (key : α → String) (acc : List (String × α)) :
    List α → List (String × α)
  | [] => acc
  | a :: rest =>
    if dmem (key a) acc then dedupFirstLoop key acc rest
    else dedupFirstLoop key (acc ++ [(key a, a)]) rest

/-- `TikTokSearchScraper.search_hashtag` profile dedup
(searchResultsScraper.py:275-278), keyed by `user_id`. -/
def uniqueProfiles (profiles : List AuthorProfile) : List (String × AuthorProfile) :=
  dedupFirstLoop (·.user_id) [] profiles

/-- `TikTokProfileLoader` post dedup (profileLoader.py:484-487),
keyed by `post_id`. -/
def uniquePosts (posts : List PostData) : List (String × PostData) :=
  dedupFirstLoop (·.post_id) [] posts

/-- `TikTokCommentsLoader._process_post_comments` comment dedup
(commentLoader.py:669-672), keyed by `cid`. -/
def uniqueComments (comments : List Comment) : List (String × Comment) :=
  dedupFirstLoop (·.cid) [] comments

/-! ## Request correlation engine (`CDPXHRMonitor`, requestMonitor.py)

The engine's mutable object state becomes `MonitorState`; each CDP event
handler becomes a state transformer. `re.search` on the URL filter is
abstracted as a boolean predicate in the configuration. The body-retrieval
task's interaction with the browser is abstracted by a function giving the
outcome of each fetch attempt, and the `is_running` flag observed at each
loop-top check by a function from attempt index to Bool. -/

/-- `RequestState` (requestMonitor.py:16-21). -/
inductive RequestState where
  | INITIATED
  | RESPONSE_RECEIVED
  | LOADING_FINISHED
  | FAILED
  | BODY_RETRIEVED
  deriving Repr, DecidableEq

/-- Terminal states per the spec: BODY_RETRIEVED and FAILED. -/
def RequestState.isTerminal : RequestState → Bool
  | .BODY_RETRIEVED => true
  | .FAILED => true
  | _ => false

/-- The `response_data` dict recorded by `on_response_received`. -/
structure ResponseData where
  status : Int
  headers : List (String × String)
  url : String
  deriving Repr, DecidableEq

/-- `RequestInfo` (requestMonitor.py:24-36); the wall-clock `timestamp` and
the `data_chunks` log (only ever printed) are omitted. -/
structure RequestInfo where
  request_id : String
  url : String
  state : RequestState := .INITIATED
  response_data : Option ResponseData := none
  response_body : Option String := none
  content_length : Option Int := none
  encoding_type : Option String := none
  retry_count : Nat := 0
  is_large_response : Bool := false
  deriving Repr, DecidableEq

/-- An entry of `matched_responses`. On success the code stores the
JSON-parsed body; only null vs. non-null matters to the claims, so `body`
holds the decoded body string. A status of `"unknown"` (emitted when
`response_data` is missing) is modelled as `none`. -/
structure CapturedResponse where
  url : String
  status : Option Int
  headers : List (String × String)
  body : Option String
  error : Option String := none
  content_length : Option Int
  is_large_response : Bool
  attempts_needed : Nat
  deriving Repr, DecidableEq

/-- Monitor construction parameters and the attributes hardcoded in
`__init__` (threshold 1 MiB, 3 retries, 0.5 s base delay, 1.0 s large-body
retrieval delay). -/
structure MonitorConfig where
  urlMatches : String → Bool
  timeout : ℚ := 10
  large_response_threshold : Int := 1024 * 1024
  max_retry_attempts : Nat := 3
  base_retry_delay : ℚ := 1/2
  body_retrieval_delay : ℚ := 1

/-- The monitor's mutable state. `pendingRetrievals` records the request ids
for which `on_loading_finished` has `asyncio.create_task`-scheduled a body
retrieval that has not run yet. -/
structure MonitorState where
  tracked_requests : List (String × RequestInfo) := []
  matched_responses : List CapturedResponse := []
  is_running : Bool := true
  pendingRetrievals : List String := []
  deriving Repr, DecidableEq

/-- `CDPXHRMonitor.on_request_will_be_sent` (lines 201-215). -/
def on_request_will_be_sent (cfg : MonitorConfig) (s : MonitorState)
    (request_id url : String) : MonitorState :=
  if !s.is_running then s
  else if cfg.urlMatches url then
    { s with tracked_requests :=
        dinsert request_id { request_id := request_id, url := url } s.tracked_requests }
  else s

/-- Digit-string parser backing the model of Python `int()`. -/
def parseDigits (cs : List Char) : Option Nat :=
  match cs with
  | [] => none
  | cs =>
    if cs.all (fun c => c.isDigit) then
      some (cs.foldl (fun acc c => acc * 10 + (c.toNat - '0'.toNat)) 0)
    else none

/-- Model of Python `int(header_value)`: an optional sign followed by digits
(Python's tolerance for surrounding whitespace is not needed for
content-length headers); anything else raises `ValueError`, modelled as
`none`. -/
def pyParseInt (s : String) : Option Int :=
  match s.toList with
  | '-' :: cs => (parseDigits cs).map (fun n => -(n : Int))
  | cs => (parseDigits cs).map (fun n => (n : Int))

/-- The `RequestInfo` mutations `on_response_received` performs on a tracked
request (requestMonitor.py:226-247): transition to RESPONSE_RECEIVED, record
status/headers/url, parse `content-length` (a failed `int()` parse is
swallowed), set the large flag, record encoding. -/
def responseInfoUpdate (cfg : MonitorConfig) (info : RequestInfo) (status : Int)
    (headers : List (String × String)) (url : String) : RequestInfo :=
  let info := { info with
    state := RequestState.RESPONSE_RECEIVED,
    response_data := some { status := status, headers := headers, url := url } }
  let info :=
    match dlookup "content-length" headers with
    | some cl =>
      match pyParseInt cl with
      | some n => { info with
          content_length := some n,
          is_large_response := decide (n > cfg.large_response_threshold) }
      | none => info
    | none => info
  { info with encoding_type := some ((dlookup "content-encoding" headers).getD "") }

/-- `CDPXHRMonitor.on_response_received` (lines 217-249). -/
def on_response_received (cfg : MonitorConfig) (s : MonitorState)
    (request_id : String) (status : Int) (headers : List (String × String))
    (url : String) : MonitorState :=
  if !s.is_running then s
  else
    match dlookup request_id s.tracked_requests with
    | none => s
    | some info =>
      { s with tracked_requests := dinsert request_id (responseInfoUpdate cfg info status headers url) s.tracked_requests }

/-- `CDPXHRMonitor.on_data_received` (lines 251-263): only logs. -/
def on_data_received (s : MonitorState) (_request_id : String) : MonitorState :=
  s

/-- The delay passed to `retrieve_response_body_with_retry` when it is
scheduled (line 278): `body_retrieval_delay` for large responses, else 0.2 s. -/
def retrievalDelay (cfg : MonitorConfig) (info : RequestInfo) : ℚ :=
  if info.is_large_response then cfg.body_retrieval_delay else 1/5

/-- The per-attempt fetch timeout (lines 309-312): doubled and capped at 30 s
for large responses, else the configured timeout. -/
def attemptTimeout (cfg : MonitorConfig) (info : RequestInfo) : ℚ :=
  if info.is_large_response then min (cfg.timeout * 2) 30 else cfg.timeout

/-- `CDPXHRMonitor.on_loading_finished` (lines 265-279): transition to
LOADING_FINISHED and schedule a body-retrieval task. -/
def on_loading_finished (s : MonitorState) (request_id : String) : MonitorState :=
  if !s.is_running then s
  else
    match dlookup request_id s.tracked_requests with
    | none => s
    | some info =>
      { s with
        tracked_requests :=
          dinsert request_id { info with state := RequestState.LOADING_FINISHED }
            s.tracked_requests,
        pendingRetrievals := s.pendingRetrievals ++ [request_id] }

/-- `CDPXHRMonitor.on_loading_failed` (lines 281-290): transition to FAILED
and print; nothing is appended to `matched_responses`. -/
def on_loading_failed (s : MonitorState) (request_id : String) : MonitorState :=
  if !s.is_running then s
  else
    match dlookup request_id s.tracked_requests with
    | none => s
    | some info =>
      { s with tracked_requests :=
          dinsert request_id { info with state := RequestState.FAILED } s.tracked_requests }

/-- Outcome of one `get_response_body` attempt, after base64 decoding:
either a decoded body, an `asyncio.TimeoutError`, or another exception
carrying its message string. -/
inductive FetchOutcome where
  | success (body : String)
  | timeout
  | error (msg : String)
  deriving Repr, DecidableEq

/-- The retryable error class (line 372): the message contains `-32000` or
`No resource with given identifier`. -/
def isResourceNotFoundError (msg : String) : Bool :=
  decide ("-32000".toList <:+: msg.toList) ||
    decide ("No resource with given identifier".toList <:+: msg.toList)

/-- A fetch outcome the retry loop is willing to retry. -/
def FetchOutcome.retryableFailure : FetchOutcome → Prop
  | .timeout => True
  | .error msg => isResourceNotFoundError msg = true
  | .success _ => False

/-- Result of the attempt loop in `retrieve_response_body_with_retry`:
`attemptsMade` counts the fetch attempts actually performed. `aborted`
means a loop-top `is_running` check failed, which returns from the method
without emitting anything. -/
inductive RetryResult where
  | succeeded (attemptsMade : Nat) (body : String)
  | exhausted (attemptsMade : Nat)
  | aborted (attemptsMade : Nat)
  deriving Repr, DecidableEq

/-- The `for attempt in range(self.max_retry_attempts + 1)` loop
(lines 301-391), from attempt index `i` with `fuel` iterations left.
`running i` is the `is_running` flag observed at the check before attempt
`i`; `outcome i` the result of the fetch on attempt `i`. An exception is
retried only when it is a timeout or the resource-not-found class and
`attempt < max_retry_attempts`; any other exception breaks immediately. -/
def retryLoop (maxRetry : Nat) (outcome : Nat → FetchOutcome) (running : Nat → Bool) :
    Nat → Nat → RetryResult
  | i, 0 => .exhausted i
  | i, fuel + 1 =>
    if !running i then .aborted i
    else
      match outcome i with
      | .success b => .succeeded (i + 1) b
      | .timeout =>
        if i < maxRetry then retryLoop maxRetry outcome running (i + 1) fuel
        else .exhausted (i + 1)
      | .error msg =>
        if isResourceNotFoundError msg then
          if i < maxRetry then retryLoop maxRetry outcome running (i + 1) fuel
          else .exhausted (i + 1)
        else .exhausted (i + 1)

/-- The attempt loop started from attempt 0. -/
def runRetry (maxRetry : Nat) (outcome : Nat → FetchOutcome) (running : Nat → Bool) :
    RetryResult :=
  retryLoop maxRetry outcome running 0 (maxRetry + 1)

/-- The success record (lines 332-341). The code reads
`response_data["status"]`/`["headers"]` unguarded here; on the failure path
(lines 398-408) it guards with `if request_info.response_data`. Both are
modelled through the `Option`. -/
def successRecord (info : RequestInfo) (attemptsMade : Nat) (decodedBody : String) :
    CapturedResponse :=
  { url := info.url
    status := info.response_data.map (·.status)
    headers := (info.response_data.map (·.headers)).getD []
    body := some decodedBody
    error := none
    content_length := info.content_length
    is_large_response := info.is_large_response
    attempts_needed := attemptsMade }

/-- The failure record (lines 398-408): null body, error marker, and an
`attempts_needed` hardcoded to `max_retry_attempts + 1`. -/
def failureRecord (maxRetry : Nat) (info : RequestInfo) : CapturedResponse :=
  { url := info.url
    status := info.response_data.map (·.status)
    headers := (info.response_data.map (·.headers)).getD []
    body := none
    error := some "Failed to retrieve response body"
    content_length := info.content_length
    is_large_response := info.is_large_response
    attempts_needed := maxRetry + 1 }

/-- `CDPXHRMonitor.retrieve_response_body_with_retry` (lines 292-409) for the
request with the given id: on success appends a success record and marks the
request BODY_RETRIEVED; on exhaustion or a non-retryable error appends
exactly one failure record (leaving the request's state unchanged); on an
`is_running` abort appends nothing. -/
def retrieveResponseBody (cfg : MonitorConfig) (s : MonitorState)
    (request_id : String) (outcome : Nat → FetchOutcome) (running : Nat → Bool) :
    MonitorState :=
  match dlookup request_id s.tracked_requests with
  | none => s
  | some info =>
    match runRetry cfg.max_retry_attempts outcome running with
    | .aborted _ => s
    | .succeeded n b =>
      { s with
        matched_responses := s.matched_responses ++ [successRecord info n b],
        tracked_requests :=
          dinsert request_id
            { info with state := RequestState.BODY_RETRIEVED, response_body := some b }
            s.tracked_requests }
    | .exhausted _ =>
      { s with matched_responses :=
          s.matched_responses ++ [failureRecord cfg.max_retry_attempts info] }

/-! ## Event traces of the correlation engine (claim C5)

A run of the engine is a sequence of events: the five CDP notifications plus
the completion of a scheduled body-retrieval task. The CDP protocol's
per-request ordering guarantees (each request id sees at most one
`requestWillBeSent`, always first, and at most one of
`loadingFinished`/`loadingFailed`, after which no further lifecycle
notifications for that id arrive) are expressed as a well-formedness
condition on traces. -/

inductive NetEvent where
  | requestWillBeSent (id url : String)
  | responseReceived (id : String) (status : Int) (headers : List (String × String))
      (url : String)
  | dataReceived (id : String)
  | loadingFinished (id : String)
  | loadingFailed (id : String)
  | retrievalRun (id : String) (outcome : Nat → FetchOutcome) (running : Nat → Bool)

/-- The request id an event concerns. -/
def NetEvent.eid : NetEvent → String
  | .requestWillBeSent id _ => id
  | .responseReceived id _ _ _ => id
  | .dataReceived id => id
  | .loadingFinished id => id
  | .loadingFailed id => id
  | .retrievalRun id _ _ => id

def NetEvent.isWBS : NetEvent → Bool
  | .requestWillBeSent _ _ => true
  | _ => false

def NetEvent.isRR : NetEvent → Bool
  | .responseReceived _ _ _ _ => true
  | _ => false

/-- The two final CDP lifecycle notifications. -/
def NetEvent.isLifecycleEnd : NetEvent → Bool
  | .loadingFinished _ => true
  | .loadingFailed _ => true
  | _ => false

/-- One engine step. A `retrievalRun` event is the scheduled body-retrieval
task for the given id running to completion; it can only fire while its id
sits in `pendingRetrievals`, and consumes that slot. -/
def step (cfg : MonitorConfig) (s : MonitorState) : NetEvent → MonitorState
  | .requestWillBeSent id url => on_request_will_be_sent cfg s id url
  | .responseReceived id status headers url =>
    on_response_received cfg s id status headers url
  | .dataReceived id => on_data_received s id
  | .loadingFinished id => on_loading_finished s id
  | .loadingFailed id => on_loading_failed s id
  | .retrievalRun id outcome running =>
    if id ∈ s.pendingRetrievals then
      retrieveResponseBody cfg
        { s with pendingRetrievals := s.pendingRetrievals.erase id } id outcome running
    else s

def runTrace (cfg : MonitorConfig) (s : MonitorState) : List NetEvent → MonitorState
  | [] => s
  | e :: rest => runTrace cfg (step cfg s e) rest

/-- The lifecycle state the engine currently records for a request id. -/
def stateOf (s : MonitorState) (id : String) : Option RequestState :=
  (dlookup id s.tracked_requests).map RequestInfo.state

/-- Ordered-pair constraint of a well-formed CDP trace: for two events on the
same request id, the later one is never a `requestWillBeSent`, and once a
final lifecycle notification was delivered, no further response-headers or
final lifecycle notification follows. -/
def eventOk (a b : NetEvent) : Bool :=
  !(a.eid == b.eid) ||
    (!b.isWBS && (!a.isLifecycleEnd || (!b.isRR && !b.isLifecycleEnd)))

/-- Invariant tying the engine state after a trace prefix `p` to the events
of `p`: the engine runs; every pending retrieval was scheduled by a
loading-finished event (at most once) for a tracked request; BODY_RETRIEVED
requires an earlier loading-finished with the retrieval slot consumed; and
FAILED requires an earlier loading-failed. -/
def TraceInv (p : List NetEvent) (s : MonitorState) : Prop :=
  s.is_running = true ∧
  (∀ id, id ∈ s.pendingRetrievals → NetEvent.loadingFinished id ∈ p) ∧
  (∀ id, s.pendingRetrievals.count id ≤ 1) ∧
  (∀ id, id ∈ s.pendingRetrievals → stateOf s id ≠ none) ∧
  (∀ id, stateOf s id = some RequestState.BODY_RETRIEVED →
    NetEvent.loadingFinished id ∈ p ∧ id ∉ s.pendingRetrievals) ∧
  (∀ id, stateOf s id = some RequestState.FAILED → NetEvent.loadingFailed id ∈ p)

/-! ## Relationship graph (`UnifiedTikTokScraper._add_relationships`,
unified_scraper.py:508-549)

Set-valued maps (`Dict[str, Set[str]]`) are modelled as association lists to
duplicate-free member lists grown by `sadd`. -/

structure RelGraph where
  hashtag_to_profiles : List (String × List String) := []
  profile_to_hashtags : List (String × List String) := []
  profile_to_posts : List (String × List String) := []
  post_to_profile : List (String × String) := []
  post_to_comments : List (String × List String) := []
  comment_to_post : List (String × String) := []
  comment_to_profile : List (String × String) := []
  deriving Repr, DecidableEq

/-- The hashtag↔profile block (lines 513-522): ensure both set entries exist
and add both directions. -/
def addHashtagProfile (g : RelGraph) (h u : String) : RelGraph :=
  { g with
    hashtag_to_profiles :=
      dinsert h (sadd u ((dlookup h g.hashtag_to_profiles).getD []))
        g.hashtag_to_profiles,
    profile_to_hashtags :=
      dinsert u (sadd h ((dlookup u g.profile_to_hashtags).getD []))
        g.profile_to_hashtags }

/-- The profile↔post block (lines 525-533): add the post to the profile's set
and (over)write the post's owner. -/
def addProfilePost (g : RelGraph) (u p : String) : RelGraph :=
  { g with
    profile_to_posts :=
      dinsert u (sadd p ((dlookup u g.profile_to_posts).getD []))
        g.profile_to_posts,
    post_to_profile := dinsert p u g.post_to_profile }

/-- The post↔comment block (lines 536-549): add the comment to the post's
set, (over)write the comment's post, and, when the post has a recorded
owner, record the comment's profile. -/
def addPostComment (g : RelGraph) (p c : String) : RelGraph :=
  let g' := { g with
    post_to_comments :=
      dinsert p (sadd c ((dlookup p g.post_to_comments).getD []))
        g.post_to_comments,
    comment_to_post := dinsert c p g.comment_to_post }
  match dlookup p g'.post_to_profile with
  | some u => { g' with comment_to_profile := dinsert c u g'.comment_to_profile }
  | none => g'

/-- `if hashtag and profile:` — `hashtag` is a string, so its Python
truthiness also requires it to be non-empty; `profile` is an object, truthy
whenever supplied. -/
def relStage1 (g : RelGraph) (hashtag profile : Option String) : RelGraph :=
  match hashtag, profile with
  | some h, some u => if h.isEmpty then g else addHashtagProfile g h u
  | _, _ => g

/-- `if profile and post:` block. -/
def relStage2 (g : RelGraph) (profile post : Option String) : RelGraph :=
  match profile, post with
  | some u, some p => addProfilePost g u p
  | _, _ => g

/-- `if post and comment:` block. -/
def relStage3 (g : RelGraph) (post comment : Option String) : RelGraph :=
  match post, comment with
  | some p, some c => addPostComment g p c
  | _, _ => g

/-- `_add_relationships(hashtag, profile, post, comment)`: the three guarded
blocks applied in order; entity objects are represented by their natural id. -/
def addRelationships (g : RelGraph) (hashtag profile post comment : Option String) :
    RelGraph :=
  relStage3 (relStage2 (relStage1 g hashtag profile) profile post) post comment

/-- One invocation of the single relationship mutator. -/
structure RelCall where
  hashtag : Option String := none
  profile : Option String := none
  post : Option String := none
  comment : Option String := none
  deriving Repr, DecidableEq

def applyRelCalls (g : RelGraph) : List RelCall → RelGraph
  | [] => g
  | call :: rest =>
    applyRelCalls (addRelationships g call.hashtag call.profile call.post call.comment) rest

/-- The relationship invariants maintained by every call sequence:
both scalar maps are single-valued (duplicate-free keys), the
hashtag↔profile edges agree in both directions, and a recorded post owner
always appears in the owner's post set. -/
def GraphInv (g : RelGraph) : Prop :=
  ((g.post_to_profile.map Prod.fst).Nodup) ∧
  ((g.comment_to_post.map Prod.fst).Nodup) ∧
  (∀ h u, u ∈ (dlookup h g.hashtag_to_profiles).getD [] ↔
    h ∈ (dlookup u g.profile_to_hashtags).getD []) ∧
  (∀ p u, dlookup p g.post_to_profile = some u →
    p ∈ (dlookup u g.profile_to_posts).getD [])

/-! ## Helper lemmas about the resume-point scan -/

theorem filter_ne_nil_iff_exists (p : α → Bool) (l : List α) :
    l.filter p ≠ [] ↔ ∃ a ∈ l, p a := by
  constructor
  · intro h
    rcases List.exists_mem_of_ne_nil _ h with ⟨a, ha⟩
    exact ⟨a, List.mem_of_mem_filter ha, List.of_mem_filter ha⟩
  · rintro ⟨a, ha, hpa⟩ hnil
    exact absurd (List.mem_filter.mpr ⟨ha, hpa⟩) (by simp [hnil])

/-- C4: `_determine_resume_point` returns start index 0 and, in order of
priority: SEARCH with exactly the unprocessed hashtags, PROFILES with exactly
the profiles lacking a (nonzero) posts_count, COMMENTS with exactly the posts
with zero linked comments, else COMPLETE with nothing pending. -/
theorem c4_resume_point (d : WorkflowData) (oh : List String) :
    (determineResumePoint d oh).2.2 = 0 ∧
    ((∃ h ∈ oh, ¬ dmem h d.hashtags_data) →
      (determineResumePoint d oh).1 = "search" ∧
      (determineResumePoint d oh).2.1 = oh.filter (fun h => !(dmem h d.hashtags_data))) ∧
    ((∀ h ∈ oh, dmem h d.hashtags_data) →
      (∃ p ∈ d.profiles_data, profileNeedsPosts p.2) →
      (determineResumePoint d oh).1 = "profiles" ∧
      (determineResumePoint d oh).2.1 =
        ((d.profiles_data.filter fun p => profileNeedsPosts p.2).map (·.1))) ∧
    ((∀ h ∈ oh, dmem h d.hashtags_data) →
      (∀ p ∈ d.profiles_data, ¬ profileNeedsPosts p.2) →
      (∃ q ∈ d.posts_data, postNeedsComments d q.1) →
      (determineResumePoint d oh).1 = "comments" ∧
      (determineResumePoint d oh).2.1 =
        ((d.posts_data.filter fun p => postNeedsComments d p.1).map (·.1))) ∧
    ((∀ h ∈ oh, dmem h d.hashtags_data) →
      (∀ p ∈ d.profiles_data, ¬ profileNeedsPosts p.2) →
      (∀ q ∈ d.posts_data, ¬ postNeedsComments d q.1) →
      (determineResumePoint d oh).1 = "complete" ∧
      (determineResumePoint d oh).2.1 = []) := by
  have hsearch : oh.filter (fun h => !(dmem h d.hashtags_data)) ≠ [] ↔
      ∃ h ∈ oh, ¬ dmem h d.hashtags_data := by
    rw [filter_ne_nil_iff_exists]
    simp
  have hprof : d.profiles_data.filter (fun p => profileNeedsPosts p.2) ≠ [] ↔
      ∃ p ∈ d.profiles_data, profileNeedsPosts p.2 :=
    filter_ne_nil_iff_exists _ _
  have hpost : d.posts_data.filter (fun p => postNeedsComments d p.1) ≠ [] ↔
      ∃ q ∈ d.posts_data, postNeedsComments d q.1 :=
    filter_ne_nil_iff_exists _ _
  unfold determineResumePoint
  by_cases h1 : oh.filter (fun h => !(dmem h d.hashtags_data)) = []
  · by_cases h2 : d.profiles_data.filter (fun p => profileNeedsPosts p.2) = []
    · by_cases h3 : d.posts_data.filter (fun p => postNeedsComments d p.1) = []
      · refine ⟨by simp [h1, h2, h3], ?_, ?_, ?_, ?_⟩
        · intro hex
          exact absurd h1 (hsearch.mpr hex)
        · intro _ hex
          exact absurd h2 (hprof.mpr hex)
        · intro _ _ hex
          exact absurd h3 (hpost.mpr hex)
        · intro _ _ _
          simp [h1, h2, h3]
      · refine ⟨by simp [h1, h2, h3], ?_, ?_, ?_, ?_⟩
        · intro hex
          exact absurd h1 (hsearch.mpr hex)
        · intro _ hex
          exact absurd h2 (hprof.mpr hex)
        · intro _ _ _
          simp [h1, h2, h3]
        · intro _ _ hall
          rcases hpost.mp h3 with ⟨q, hq, hneed⟩
          exact absurd hneed (by simpa using hall q hq)
    · refine ⟨by simp [h1, h2], ?_, ?_, ?_, ?_⟩
      · intro hex
        exact absurd h1 (hsearch.mpr hex)
      · intro _ _
        simp [h1, h2]
      · intro _ hall _
        rcases hprof.mp h2 with ⟨p, hp, hneed⟩
        exact absurd hneed (by simpa using hall p hp)
      · intro _ hall _
        rcases hprof.mp h2 with ⟨p, hp, hneed⟩
        exact absurd hneed (by simpa using hall p hp)
  · have h1' : oh.filter (fun h => !(dmem h d.hashtags_data)) ≠ [] := h1
    refine ⟨by simp [h1], ?_, ?_, ?_, ?_⟩
    · intro _
      simp [h1]
    · intro hall _
      rcases hsearch.mp h1' with ⟨h, hh, hneed⟩
      exact absurd (hall h hh) hneed
    · intro hall _ _
      rcases hsearch.mp h1' with ⟨h, hh, hneed⟩
      exact absurd (hall h hh) hneed
    · intro hall _ _
      rcases hsearch.mp h1' with ⟨h, hh, hneed⟩
      exact absurd (hall h hh) hneed

/-- C4 witness: a concrete restored state — hashtag done, profile has a
posts_count of 3, one post with no linked comments — resumes in the comments
phase with exactly that post pending, at start index 0. -/
theorem c4_resume_point_witness :
    (determineResumePoint
      { hashtags_data := [("travel", {})],
        profiles_data := [("u1", { posts_count := some 3 })],
        posts_data := [("p1", {})],
        post_to_comments := [] } ["travel"]).1 = "comments" ∧
    (determineResumePoint
      { hashtags_data := [("travel", {})],
        profiles_data := [("u1", { posts_count := some 3 })],
        posts_data := [("p1", {})],
        post_to_comments := [] } ["travel"]).2.1 = ["p1"] := by
  have h := c4_resume_point
      { hashtags_data := [("travel", {})],
        profiles_data := [("u1", { posts_count := some 3 })],
        posts_data := [("p1", {})],
        post_to_comments := [] } ["travel"]
  have hc := h.2.2.2.1 (by decide) (by decide) (by decide)
  exact ⟨hc.1, by rw [hc.2]; decide⟩

/-! ## Session-budget lemmas and claim C3 -/

theorem pyTrunc_le_zero_iff (x : ℚ) : pyTrunc x ≤ 0 ↔ x < 1 := by
  unfold pyTrunc
  by_cases h : 0 ≤ x
  · rw [if_pos h]
    constructor
    · intro hf
      have h1 := Int.lt_floor_add_one x
      have h2 : (⌊x⌋ : ℚ) ≤ 0 := by exact_mod_cast hf
      linarith
    · intro hx
      have : ⌊x⌋ < 1 := by
        rw [Int.floor_lt]
        exact_mod_cast hx
      omega
  · rw [if_neg h]
    push_neg at h
    constructor
    · intro _
      linarith
    · intro _
      have hx : x ≤ ((0 : ℤ) : ℚ) := by exact_mod_cast h.le
      exact Int.ceil_le.mpr hx

theorem timeRemaining_le_zero_iff (st : SessionState) (now : ℚ) :
    timeRemaining st now ≤ 0 ↔
      st.session_duration_limit - (now - st.session_start_time) < 1 := by
  unfold timeRemaining
  rw [max_le_iff]
  constructor
  · intro h
    exact (pyTrunc_le_zero_iff _).mp h.2
  · intro h
    exact ⟨le_refl 0, (pyTrunc_le_zero_iff _).mpr h⟩

/-- C3 (corrected): with `should_stop` unset, `should_continue` returns true
at every call made before the grace period is entered; the grace period is
anchored at the wall-clock time of the first call that observes a truncated
remaining time of 0 (which happens once elapsed exceeds T−1, not exactly at
T); once anchored at `g`, a call at time `now` returns true iff `now − g <
60`. In particular every call with elapsed < T still returns true. -/
theorem c3_should_continue_grace_anchored (st : SessionState) (now : ℚ)
    (hstop : st.should_stop = false) :
    (st.grace_period_start = none → (shouldContinue st now).1 = true) ∧
    (∀ g, st.grace_period_start = some g →
      (shouldContinue st now).1 = decide (now - g < 60)) ∧
    (st.grace_period_start = none → timeRemaining st now ≤ 0 →
      (shouldContinue st now).2.grace_period_start = some now) ∧
    (st.grace_period_start = none → ¬ timeRemaining st now ≤ 0 →
      (shouldContinue st now).2 = st) ∧
    (∀ g, st.grace_period_start = some g →
      st.session_duration_limit - (g - st.session_start_time) < 1 →
      now - st.session_start_time < st.session_duration_limit →
      (shouldContinue st now).1 = true) := by
  refine ⟨?_, ?_, ?_, ?_, ?_⟩
  · intro hg
    unfold shouldContinue
    rw [if_neg (by simp [hstop]), hg]
    by_cases h : timeRemaining st now ≤ 0 <;> simp [h]
  · intro g hg
    unfold shouldContinue
    rw [if_neg (by simp [hstop]), hg]
  · intro hg hle
    unfold shouldContinue
    rw [if_neg (by simp [hstop]), hg]
    simp [hle]
  · intro hg hle
    unfold shouldContinue
    rw [if_neg (by simp [hstop]), hg]
    simp [hle]
  · intro g hg hlate hbefore
    unfold shouldContinue
    rw [if_neg (by simp [hstop]), hg]
    simp only [decide_eq_true_eq]
    linarith

/-- C3 witness for the corrected statement: a session started at time 0 with a
100-second limit whose grace period was entered at time 120 still answers true
at time 150 (30 seconds into the grace window). -/
theorem c3_should_continue_grace_anchored_witness :
    ({ session_start_time := 0, session_duration_limit := 100,
       grace_period_start := some 120 : SessionState }).should_stop = false ∧
    (shouldContinue
      { session_start_time := 0, session_duration_limit := 100,
        grace_period_start := some 120 } 150).1 = true := by
  refine ⟨rfl, ?_⟩
  have h := (c3_should_continue_grace_anchored
      { session_start_time := 0, session_duration_limit := 100,
        grace_period_start := some 120 } 150 rfl).2.1 120 rfl
  rw [h]
  simp only [decide_eq_true_eq]
  norm_num

/-- C3 counterexample: the claim says `should_continue` answers false at every
call once elapsed ≥ T+G. With T = 100 s and G = 60 s, a session started at 0
whose first over-budget call happens at t = 150 anchors the grace window
there, so a call at t = 200 — elapsed 200 ≥ 160 — still answers true. -/
theorem c3_counterexample :
    (({ session_start_time := 0, session_duration_limit := 100 : SessionState })).should_stop
        = false ∧
    ((200 : ℚ) - 0 ≥ 100 + 60) ∧
    (shouldContinue
      (shouldContinue { session_start_time := 0, session_duration_limit := 100 } 150).2
      200).1 = true := by
  refine ⟨rfl, by norm_num, ?_⟩
  have hle : timeRemaining { session_start_time := 0, session_duration_limit := 100 } 150 ≤ 0 :=
    (timeRemaining_le_zero_iff _ _).mpr (by norm_num)
  have h1 : shouldContinue { session_start_time := 0, session_duration_limit := 100 } 150
      = (true, { session_start_time := 0, session_duration_limit := 100,
                 grace_period_start := some 150 }) := by
    unfold shouldContinue
    simp [hle]
  rw [h1]
  show (shouldContinue
      { session_start_time := 0, session_duration_limit := 100,
        grace_period_start := some 150 } 200).1 = true
  unfold shouldContinue
  norm_num

/-! ## Retry-loop lemmas and claims C1, C2, C9, C8 -/

theorem retryLoop_exhausts (maxRetry : Nat) (outcome : Nat → FetchOutcome)
    (running : Nat → Bool) (hrun : ∀ i, running i = true)
    (hfail : ∀ i, i ≤ maxRetry → (outcome i).retryableFailure) :
    ∀ fuel i, i + fuel = maxRetry + 1 →
      retryLoop maxRetry outcome running i fuel = RetryResult.exhausted (maxRetry + 1) := by
  intro fuel
  induction fuel with
  | zero =>
    intro i hi
    have hieq : i = maxRetry + 1 := by omega
    subst hieq
    rfl
  | succ fuel ih =>
    intro i hi
    have hile : i ≤ maxRetry := by omega
    have hretry := hfail i hile
    unfold retryLoop
    rw [hrun i]
    cases houtcome : outcome i with
    | success b =>
      rw [houtcome] at hretry
      exact absurd hretry (by simp [FetchOutcome.retryableFailure])
    | timeout =>
      simp only [Bool.not_true, Bool.false_eq_true, if_false]
      by_cases hlt : i < maxRetry
      · rw [if_pos hlt]
        exact ih (i + 1) (by omega)
      · rw [if_neg hlt]
        have : i = maxRetry := by omega
        rw [this]
    | error msg =>
      rw [houtcome] at hretry
      have hmsg : isResourceNotFoundError msg = true := hretry
      simp only [Bool.not_true, Bool.false_eq_true, if_false, hmsg, if_true]
      by_cases hlt : i < maxRetry
      · rw [if_pos hlt]
        exact ih (i + 1) (by omega)
      · rw [if_neg hlt]
        have : i = maxRetry := by omega
        rw [this]

/-- The retrieval function's emission when the loop ends exhausted. -/
theorem retrieveResponseBody_exhausted (cfg : MonitorConfig) (s : MonitorState)
    (rid : String) (outcome : Nat → FetchOutcome) (running : Nat → Bool)
    (info : RequestInfo) (n : Nat)
    (htr : dlookup rid s.tracked_requests = some info)
    (hloop : runRetry cfg.max_retry_attempts outcome running = RetryResult.exhausted n) :
    (retrieveResponseBody cfg s rid outcome running).matched_responses =
      s.matched_responses ++ [failureRecord cfg.max_retry_attempts info] := by
  unfold retrieveResponseBody
  rw [htr, hloop]

/-- C2: a tracked request whose body fetch hits a retryable error (timeout or
the `-32000` / resource-not-found class) on every attempt, with `is_running`
true throughout, gets exactly `max_retry_attempts + 1` fetch attempts, after
which exactly one CapturedResponse is appended, with a null body and a
non-null error field. -/
theorem c2_retry_bound (cfg : MonitorConfig) (s : MonitorState) (rid : String)
    (outcome : Nat → FetchOutcome) (running : Nat → Bool) (info : RequestInfo)
    (htr : dlookup rid s.tracked_requests = some info)
    (hrun : ∀ i, running i = true)
    (hfail : ∀ i, i ≤ cfg.max_retry_attempts → (outcome i).retryableFailure) :
    runRetry cfg.max_retry_attempts outcome running
      = RetryResult.exhausted (cfg.max_retry_attempts + 1) ∧
    (retrieveResponseBody cfg s rid outcome running).matched_responses =
      s.matched_responses ++ [failureRecord cfg.max_retry_attempts info] ∧
    (failureRecord cfg.max_retry_attempts info).body = none ∧
    (failureRecord cfg.max_retry_attempts info).error.isSome = true := by
  have hloop := retryLoop_exhausts cfg.max_retry_attempts outcome running hrun hfail
    (cfg.max_retry_attempts + 1) 0 (by omega)
  exact ⟨hloop, retrieveResponseBody_exhausted cfg s rid outcome running info _ htr hloop,
    rfl, rfl⟩

/-- C2 witness: a tracked request timing out on every attempt, with the
default 3 retries, is attempted 4 times and yields one null-body record. -/
theorem c2_retry_bound_witness :
    (∀ i : Nat, (fun _ : Nat => true) i = true) ∧
    runRetry 3 (fun _ => FetchOutcome.timeout) (fun _ => true) = RetryResult.exhausted 4 ∧
    (retrieveResponseBody { urlMatches := fun _ => true }
      { tracked_requests := [("r1", { request_id := "r1", url := "u" })] } "r1"
      (fun _ => FetchOutcome.timeout) (fun _ => true)).matched_responses =
      [failureRecord 3 { request_id := "r1", url := "u" }] := by
  have h := c2_retry_bound { urlMatches := fun _ => true }
      { tracked_requests := [("r1", { request_id := "r1", url := "u" })] } "r1"
      (fun _ => FetchOutcome.timeout) (fun _ => true) { request_id := "r1", url := "u" }
      rfl (fun _ => rfl) (fun _ _ => trivial)
  exact ⟨fun _ => rfl, h.1, h.2.1⟩

/-- C9: when the first fetch attempt raises a non-retryable error the loop
breaks after exactly one attempt, yet the emitted failure record hardcodes
`attempts_needed = max_retry_attempts + 1`, misreporting the attempt count. -/
theorem c9_attempts_needed_misreported (cfg : MonitorConfig) (s : MonitorState)
    (rid : String) (outcome : Nat → FetchOutcome) (running : Nat → Bool)
    (info : RequestInfo) (msg : String)
    (htr : dlookup rid s.tracked_requests = some info)
    (hrun : running 0 = true)
    (h0 : outcome 0 = FetchOutcome.error msg)
    (hnr : isResourceNotFoundError msg = false) :
    runRetry cfg.max_retry_attempts outcome running = RetryResult.exhausted 1 ∧
    (retrieveResponseBody cfg s rid outcome running).matched_responses =
      s.matched_responses ++ [failureRecord cfg.max_retry_attempts info] ∧
    (failureRecord cfg.max_retry_attempts info).attempts_needed
      = cfg.max_retry_attempts + 1 ∧
    (failureRecord cfg.max_retry_attempts info).body = none ∧
    (failureRecord cfg.max_retry_attempts info).error.isSome = true := by
  have hloop : runRetry cfg.max_retry_attempts outcome running = RetryResult.exhausted 1 := by
    unfold runRetry retryLoop
    rw [hrun, h0]
    simp [hnr]
  exact ⟨hloop, retrieveResponseBody_exhausted cfg s rid outcome running info _ htr hloop,
    rfl, rfl, rfl⟩

/-- C9 witness: a first-attempt `"connection reset"` error (neither a timeout
nor the resource-not-found class) stops after 1 attempt, while the failure
record claims 4 attempts were needed. -/
theorem c9_attempts_needed_misreported_witness :
    isResourceNotFoundError "connection reset" = false ∧
    runRetry 3 (fun _ => FetchOutcome.error "connection reset") (fun _ => true)
      = RetryResult.exhausted 1 ∧
    (failureRecord 3 { request_id := "r1", url := "u" }).attempts_needed = 4 := by
  have h := c9_attempts_needed_misreported { urlMatches := fun _ => true }
      { tracked_requests := [("r1", { request_id := "r1", url := "u" })] } "r1"
      (fun _ => FetchOutcome.error "connection reset") (fun _ => true)
      { request_id := "r1", url := "u" } "connection reset"
      rfl rfl rfl (by decide)
  exact ⟨by decide, h.1, h.2.2.1⟩

/-- C1 (corrected): `on_loading_failed` transitions a tracked request to
FAILED but appends nothing to `matched_responses` and schedules nothing —
an explicit load failure produces no CapturedResponse. -/
theorem c1_loading_failed_emits_nothing (s : MonitorState) (rid : String)
    (info : RequestInfo)
    (hrun : s.is_running = true)
    (htr : dlookup rid s.tracked_requests = some info) :
    dlookup rid (on_loading_failed s rid).tracked_requests =
      some { info with state := RequestState.FAILED } ∧
    (on_loading_failed s rid).matched_responses = s.matched_responses ∧
    (on_loading_failed s rid).pendingRetrievals = s.pendingRetrievals := by
  unfold on_loading_failed
  rw [hrun, htr]
  simp [dlookup_dinsert_self]

/-- C1 witness: a concrete tracked request in RESPONSE_RECEIVED moved to
FAILED by `on_loading_failed`, with the captured-response list untouched. -/
theorem c1_loading_failed_emits_nothing_witness :
    ({ tracked_requests := [("r1", { request_id := "r1", url := "u", state := RequestState.RESPONSE_RECEIVED })] : MonitorState }).is_running = true ∧
    dlookup "r1" (on_loading_failed
      { tracked_requests := [("r1", { request_id := "r1", url := "u", state := RequestState.RESPONSE_RECEIVED })] }
      "r1").tracked_requests =
      some { request_id := "r1", url := "u", state := RequestState.FAILED } ∧
    (on_loading_failed
      { tracked_requests := [("r1", { request_id := "r1", url := "u", state := RequestState.RESPONSE_RECEIVED })] }
      "r1").matched_responses = [] := by
  have h := c1_loading_failed_emits_nothing
      { tracked_requests := [("r1", { request_id := "r1", url := "u", state := RequestState.RESPONSE_RECEIVED })] }
      "r1"
      { request_id := "r1", url := "u", state := RequestState.RESPONSE_RECEIVED }
      rfl rfl
  exact ⟨rfl, h.1, h.2.1⟩

/-- C1 counterexample: the claim says a loading-failed event for a tracked
request appends a CapturedResponse with a null body and an error marker. On a
concrete trace — request tracked, response received, loading failed — the
request ends FAILED but `matched_responses` stays empty: nothing is emitted. -/
theorem c1_counterexample :
    ((dlookup "r1" (on_loading_failed
        (on_response_received { urlMatches := fun _ => true }
          (on_request_will_be_sent { urlMatches := fun _ => true } {} "r1"
            "https://www.tiktok.com/api/search/general/full/?q=x")
          "r1" 200 [] "https://www.tiktok.com/api/search/general/full/?q=x")
        "r1").tracked_requests).map RequestInfo.state = some RequestState.FAILED) ∧
    (on_loading_failed
        (on_response_received { urlMatches := fun _ => true }
          (on_request_will_be_sent { urlMatches := fun _ => true } {} "r1"
            "https://www.tiktok.com/api/search/general/full/?q=x")
          "r1" 200 [] "https://www.tiktok.com/api/search/general/full/?q=x")
        "r1").matched_responses = [] := by
  constructor
  · rfl
  · rfl

theorem responseInfoUpdate_state (cfg : MonitorConfig) (info : RequestInfo)
    (status : Int) (headers : List (String × String)) (url : String) :
    (responseInfoUpdate cfg info status headers url).state
      = RequestState.RESPONSE_RECEIVED := by
  unfold responseInfoUpdate
  cases dlookup "content-length" headers with
  | none => rfl
  | some cl =>
    dsimp only
    cases pyParseInt cl <;> rfl

theorem responseInfoUpdate_parse (cfg : MonitorConfig) (info : RequestInfo)
    (status : Int) (headers : List (String × String)) (url : String)
    (cl : String) (n : Int)
    (hcl : dlookup "content-length" headers = some cl)
    (hn : pyParseInt cl = some n) :
    responseInfoUpdate cfg info status headers url =
      { info with
        state := RequestState.RESPONSE_RECEIVED,
        response_data := some { status := status, headers := headers, url := url },
        content_length := some n,
        is_large_response := decide (n > cfg.large_response_threshold),
        encoding_type := some ((dlookup "content-encoding" headers).getD "") } := by
  unfold responseInfoUpdate
  rw [hcl]
  dsimp only
  rw [hn]

/-- C8 (corrected): a response whose declared content-length parses to an
integer above the threshold is marked is-large; its pre-retrieval delay is
`body_retrieval_delay` (1.0 s in the source, strictly above the small-response
0.2 s) and its per-attempt fetch timeout is `min(2·timeout, 30)`, which is
strictly above the small-response timeout only when the configured timeout is
below 30 s. -/
theorem c8_large_response_params (cfg : MonitorConfig) (s : MonitorState)
    (rid : String) (status : Int) (headers : List (String × String)) (url : String)
    (info : RequestInfo) (cl : String) (n : Int)
    (hrun : s.is_running = true)
    (htr : dlookup rid s.tracked_requests = some info)
    (hcl : dlookup "content-length" headers = some cl)
    (hn : pyParseInt cl = some n)
    (hbig : n > cfg.large_response_threshold)
    (hpos : 0 < cfg.timeout) :
    ∃ info',
      dlookup rid (on_response_received cfg s rid status headers url).tracked_requests
        = some info' ∧
      info'.is_large_response = true ∧
      info'.content_length = some n ∧
      retrievalDelay cfg info' = cfg.body_retrieval_delay ∧
      attemptTimeout cfg info' = min (cfg.timeout * 2) 30 ∧
      (cfg.body_retrieval_delay = 1 →
        retrievalDelay cfg info'
          > retrievalDelay cfg { info' with is_large_response := false }) ∧
      (cfg.timeout < 30 →
        attemptTimeout cfg info'
          > attemptTimeout cfg { info' with is_large_response := false }) := by
  have hdec : decide (n > cfg.large_response_threshold) = true := decide_eq_true hbig
  have hupd := responseInfoUpdate_parse cfg info status headers url cl n hcl hn
  have hlarge : (responseInfoUpdate cfg info status headers url).is_large_response = true := by
    rw [hupd]
    exact hdec
  refine ⟨responseInfoUpdate cfg info status headers url, ?_, hlarge, ?_, ?_, ?_, ?_, ?_⟩
  · unfold on_response_received
    rw [hrun]
    simp only [Bool.not_true, Bool.false_eq_true, if_false]
    rw [htr]
    exact dlookup_dinsert_self rid _ s.tracked_requests
  · rw [hupd]
  · simp [retrievalDelay, hlarge]
  · simp [attemptTimeout, hlarge]
  · intro hbd
    simp only [retrievalDelay, hlarge, if_true, Bool.false_eq_true, if_false]
    rw [hbd]
    norm_num
  · intro hlt
    simp only [attemptTimeout, hlarge, if_true, Bool.false_eq_true, if_false]
    norm_num
    exact ⟨by linarith, hlt⟩

/-- C8 witness for the corrected statement: with the default 10 s timeout, a
2 MiB response is marked large and retried with a 20 s per-attempt timeout,
strictly above the small-response parameters. -/
theorem c8_large_response_params_witness :
    (pyParseInt "2097152" = some 2097152) ∧
    ((2097152 : Int) > 1024 * 1024) ∧
    ∃ info',
      dlookup "r1" (on_response_received { urlMatches := fun _ => true }
        { tracked_requests := [("r1", { request_id := "r1", url := "u" })] }
        "r1" 200 [("content-length", "2097152")] "u").tracked_requests = some info' ∧
      info'.is_large_response = true ∧
      retrievalDelay { urlMatches := fun _ => true } info' = 1 ∧
      attemptTimeout { urlMatches := fun _ => true } info' = min (10 * 2) 30 := by
  refine ⟨by decide, by decide, ?_⟩
  obtain ⟨info', h1, h2, _, h4, h5, _, _⟩ :=
    c8_large_response_params { urlMatches := fun _ => true }
      { tracked_requests := [("r1", { request_id := "r1", url := "u" })] }
      "r1" 200 [("content-length", "2097152")] "u"
      { request_id := "r1", url := "u" } "2097152" 2097152
      rfl rfl rfl (by decide) (by decide) (by norm_num)
  exact ⟨info', h1, h2, h4, h5⟩

/-- C8 counterexample: the claim asserts the large-response fetch timeout is
strictly larger than the configured small-response timeout. With the
constructor argument `timeout=30`, a 2 MiB response is marked large yet its
per-attempt timeout is `min(60, 30) = 30`, equal to — not larger than — the
small-response timeout of 30. -/
theorem c8_counterexample :
    ((dlookup "r1" (on_response_received { urlMatches := fun _ => true, timeout := 30 }
        { tracked_requests := [("r1", { request_id := "r1", url := "u" })] }
        "r1" 200 [("content-length", "2097152")] "u").tracked_requests).map
      RequestInfo.is_large_response = some true) ∧
    ((dlookup "r1" (on_response_received { urlMatches := fun _ => true, timeout := 30 }
        { tracked_requests := [("r1", { request_id := "r1", url := "u" })] }
        "r1" 200 [("content-length", "2097152")] "u").tracked_requests).map
      (attemptTimeout { urlMatches := fun _ => true, timeout := 30 }) = some 30) ∧
    ¬ ((30 : ℚ) > ({ urlMatches := fun _ => true, timeout := 30 : MonitorConfig }).timeout) := by
  refine ⟨rfl, ?_, ?_⟩
  · show some (min ((30 : ℚ) * 2) 30) = some 30
    norm_num
  · show ¬ ((30 : ℚ) > 30)
    exact lt_irrefl _

/-! ## Dedup lemmas and claim C7 -/

theorem dmem_eq_false_iff (k : String) (d : List (String × β)) :
    dmem k d = false ↔ dlookup k d = none := by
  unfold dmem
  cases dlookup k d <;> simp

theorem dmem_iff_mem_keys (k : String) (d : List (String × β)) :
    dmem k d = true ↔ k ∈ d.map Prod.fst := by
  induction d with
  | nil => simp [dmem, dlookup]
  | cons hd tl ih =>
    obtain ⟨k', v⟩ := hd
    by_cases h : k' = k
    · simp [dmem, dlookup, h]
    · simp only [dmem, dlookup, if_neg h, List.map_cons, List.mem_cons]
      rw [← dmem, ih]
      constructor
      · exact Or.inr
      · rintro (h' | h')
        · exact absurd h'.symm h
        · exact h'

theorem dlookup_dedupFirstLoop (key : α → String) (items : List α) :
    ∀ (acc : List (String × α)) (k : String),
      dlookup k (dedupFirstLoop key acc items) =
        ((dlookup k acc).orElse fun _ => items.find? fun a => decide (key a = k)) := by
  induction items with
  | nil =>
    intro acc k
    cases h : dlookup k acc <;> simp [dedupFirstLoop, h, Option.orElse]
  | cons a rest ih =>
    intro acc k
    unfold dedupFirstLoop
    by_cases hmem : dmem (key a) acc
    · rw [if_pos hmem, ih]
      by_cases hk : key a = k
      · subst hk
        unfold dmem at hmem
        cases h : dlookup (key a) acc with
        | none => rw [h] at hmem; simp at hmem
        | some v => simp [Option.orElse]
      · rw [List.find?_cons_of_neg _ (by simp [hk])]
    · rw [if_neg (by simp [hmem]), ih]
      rw [dlookup_append]
      by_cases hk : key a = k
      · subst hk
        have hnone : dlookup (key a) acc = none := (dmem_eq_false_iff _ _).mp (by simpa using hmem)
        rw [hnone]
        rw [List.find?_cons_of_pos _ (by simp)]
        simp [dlookup, Option.orElse]
      · have : dlookup k [(key a, a)] = none := by simp [dlookup, hk]
        rw [this]
        rw [List.find?_cons_of_neg _ (by simp [hk])]
        cases h : dlookup k acc <;> simp [Option.orElse]

theorem dedupFirstLoop_keys_nodup (key : α → String) (items : List α) :
    ∀ acc : List (String × α), (acc.map Prod.fst).Nodup →
      ((dedupFirstLoop key acc items).map Prod.fst).Nodup := by
  induction items with
  | nil => intro acc h; exact h
  | cons a rest ih =>
    intro acc hacc
    unfold dedupFirstLoop
    by_cases hmem : dmem (key a) acc
    · rw [if_pos hmem]
      exact ih acc hacc
    · rw [if_neg (by simp [hmem])]
      refine ih _ ?_
      rw [List.map_append]
      rw [List.nodup_append]
      refine ⟨hacc, by simp, ?_⟩
      intro x hx
      simp only [List.map_cons, List.map_nil, List.mem_singleton]
      intro hxa
      subst hxa
      exact absurd ((dmem_iff_mem_keys _ _).mpr hx) (by simp [hmem])

theorem dlookup_uniqueProfiles (ps : List AuthorProfile) (k : String) :
    dlookup k (uniqueProfiles ps) = ps.find? fun p => decide (p.user_id = k) := by
  rw [uniqueProfiles, dlookup_dedupFirstLoop]
  simp [dlookup, Option.orElse]

theorem dlookup_uniquePosts (ps : List PostData) (k : String) :
    dlookup k (uniquePosts ps) = ps.find? fun p => decide (p.post_id = k) := by
  rw [uniquePosts, dlookup_dedupFirstLoop]
  simp [dlookup, Option.orElse]

theorem dlookup_uniqueComments (cs : List Comment) (k : String) :
    dlookup k (uniqueComments cs) = cs.find? fun c => decide (c.cid = k) := by
  rw [uniqueComments, dlookup_dedupFirstLoop]
  simp [dlookup, Option.orElse]

/-- C7: each phase scraper's dedup is first-seen-wins. For every captured
list, the dedup map holds at most one record per key, a key is present iff
some captured item bears it, and the stored record for a key is exactly the
first captured item with that key (`List.find?`), so later duplicates never
replace it. This holds for search profiles (by user id), profile posts (by
post id), and comments (by comment id). -/
theorem c7_dedup_first_seen_wins :
    (∀ ps : List AuthorProfile,
      ((uniqueProfiles ps).map Prod.fst).Nodup ∧
      (∀ k, dmem k (uniqueProfiles ps) = true ↔ ∃ p ∈ ps, p.user_id = k) ∧
      (∀ k, dlookup k (uniqueProfiles ps) = ps.find? fun p => decide (p.user_id = k))) ∧
    (∀ ps : List PostData,
      ((uniquePosts ps).map Prod.fst).Nodup ∧
      (∀ k, dmem k (uniquePosts ps) = true ↔ ∃ p ∈ ps, p.post_id = k) ∧
      (∀ k, dlookup k (uniquePosts ps) = ps.find? fun p => decide (p.post_id = k))) ∧
    (∀ cs : List Comment,
      ((uniqueComments cs).map Prod.fst).Nodup ∧
      (∀ k, dmem k (uniqueComments cs) = true ↔ ∃ c ∈ cs, c.cid = k) ∧
      (∀ k, dlookup k (uniqueComments cs) = cs.find? fun c => decide (c.cid = k))) := by
  refine ⟨fun ps => ⟨?_, fun k => ?_, dlookup_uniqueProfiles ps⟩,
    fun ps => ⟨?_, fun k => ?_, dlookup_uniquePosts ps⟩,
    fun cs => ⟨?_, fun k => ?_, dlookup_uniqueComments cs⟩⟩
  · exact dedupFirstLoop_keys_nodup _ ps [] (by simp)
  · rw [dmem, dlookup_uniqueProfiles]
    rw [List.find?_isSome]
    simp
  · exact dedupFirstLoop_keys_nodup _ ps [] (by simp)
  · rw [dmem, dlookup_uniquePosts]
    rw [List.find?_isSome]
    simp
  · exact dedupFirstLoop_keys_nodup _ cs [] (by simp)
  · rw [dmem, dlookup_uniqueComments]
    rw [List.find?_isSome]
    simp

/-! ## Relationship-graph lemmas and claim C6 -/

theorem mem_keys_dinsert (k x : String) (v : β) (d : List (String × β)) :
    x ∈ (dinsert k v d).map Prod.fst ↔ x = k ∨ x ∈ d.map Prod.fst := by
  induction d with
  | nil => simp [dinsert]
  | cons hd tl ih =>
    obtain ⟨k', v'⟩ := hd
    by_cases h : k' = k
    · subst h
      simp [dinsert]
    · simp only [dinsert, if_neg h, List.map_cons, List.mem_cons, ih]
      tauto

theorem dinsert_keys_nodup (k : String) (v : β) (d : List (String × β))
    (h : (d.map Prod.fst).Nodup) : ((dinsert k v d).map Prod.fst).Nodup := by
  induction d with
  | nil => simp [dinsert]
  | cons hd tl ih =>
    obtain ⟨k', v'⟩ := hd
    simp only [List.map_cons, List.nodup_cons] at h
    by_cases hk : k' = k
    · subst hk
      unfold dinsert
      rw [if_pos rfl]
      simp only [List.map_cons, List.nodup_cons]
      exact h
    · unfold dinsert
      rw [if_neg hk]
      simp only [List.map_cons, List.nodup_cons]
      refine ⟨?_, ih h.2⟩
      rw [mem_keys_dinsert]
      rintro (h' | h')
      · exact hk h'
      · exact h.1 h'

theorem graphInv_addHashtagProfile (g : RelGraph) (h u : String)
    (hg : GraphInv g) : GraphInv (addHashtagProfile g h u) := by
  obtain ⟨h1, h2, h3, h4⟩ := hg
  refine ⟨h1, h2, ?_, h4⟩
  intro h' u'
  show u' ∈ (dlookup h' (dinsert h (sadd u ((dlookup h g.hashtag_to_profiles).getD []))
      g.hashtag_to_profiles)).getD [] ↔
    h' ∈ (dlookup u' (dinsert u (sadd h ((dlookup u g.profile_to_hashtags).getD []))
      g.profile_to_hashtags)).getD []
  by_cases hh : h = h'
  · subst hh
    rw [dlookup_dinsert_self]
    by_cases hu : u = u'
    · subst hu
      rw [dlookup_dinsert_self]
      simp only [Option.getD_some]
      exact iff_of_true ((mem_sadd _ _ _).mpr (Or.inl rfl))
        ((mem_sadd _ _ _).mpr (Or.inl rfl))
    · rw [dlookup_dinsert_ne _ _ _ _ hu]
      simp only [Option.getD_some]
      rw [mem_sadd]
      constructor
      · rintro (h' | h')
        · exact absurd h'.symm hu
        · exact (h3 h u').mp h'
      · intro hmem
        exact Or.inr ((h3 h u').mpr hmem)
  · rw [dlookup_dinsert_ne _ _ _ _ hh]
    by_cases hu : u = u'
    · subst hu
      rw [dlookup_dinsert_self]
      simp only [Option.getD_some]
      rw [mem_sadd]
      constructor
      · intro hmem
        exact Or.inr ((h3 h' u).mp hmem)
      · rintro (h'' | h'')
        · exact absurd h''.symm hh
        · exact (h3 h' u).mpr h''
    · rw [dlookup_dinsert_ne _ _ _ _ hu]
      exact h3 h' u'

theorem graphInv_addProfilePost (g : RelGraph) (u p : String)
    (hg : GraphInv g) : GraphInv (addProfilePost g u p) := by
  obtain ⟨h1, h2, h3, h4⟩ := hg
  refine ⟨dinsert_keys_nodup _ _ _ h1, h2, h3, ?_⟩
  intro p' u' hlook
  show p' ∈ (dlookup u' (dinsert u (sadd p ((dlookup u g.profile_to_posts).getD []))
      g.profile_to_posts)).getD []
  by_cases hp : p = p'
  · subst hp
    rw [show (addProfilePost g u p).post_to_profile = dinsert p u g.post_to_profile from rfl,
      dlookup_dinsert_self] at hlook
    injection hlook with hu'
    subst hu'
    rw [dlookup_dinsert_self]
    exact (mem_sadd _ _ _).mpr (Or.inl rfl)
  · rw [show (addProfilePost g u p).post_to_profile = dinsert p u g.post_to_profile from rfl,
      dlookup_dinsert_ne _ _ _ _ hp] at hlook
    have hmem := h4 p' u' hlook
    by_cases hu : u = u'
    · subst hu
      rw [dlookup_dinsert_self]
      exact (mem_sadd _ _ _).mpr (Or.inr hmem)
    · rw [dlookup_dinsert_ne _ _ _ _ hu]
      exact hmem

theorem graphInv_addPostComment (g : RelGraph) (p c : String)
    (hg : GraphInv g) : GraphInv (addPostComment g p c) := by
  obtain ⟨h1, h2, h3, h4⟩ := hg
  unfold addPostComment
  dsimp only
  split
  · exact ⟨h1, dinsert_keys_nodup _ _ _ h2, h3, h4⟩
  · exact ⟨h1, dinsert_keys_nodup _ _ _ h2, h3, h4⟩

theorem graphInv_addRelationships (g : RelGraph) (ht pr po co : Option String)
    (hg : GraphInv g) : GraphInv (addRelationships g ht pr po co) := by
  have hg1 : GraphInv (relStage1 g ht pr) := by
    unfold relStage1
    cases ht with
    | none => cases pr <;> exact hg
    | some h =>
      cases pr with
      | none => exact hg
      | some u =>
        by_cases he : h.isEmpty
        · simp only [if_pos he]
          exact hg
        · simp only [if_neg he]
          exact graphInv_addHashtagProfile g h u hg
  have hg2 : GraphInv (relStage2 (relStage1 g ht pr) pr po) := by
    unfold relStage2
    cases pr with
    | none => cases po <;> exact hg1
    | some u =>
      cases po with
      | none => exact hg1
      | some p => exact graphInv_addProfilePost _ u p hg1
  unfold addRelationships relStage3
  cases po with
  | none => cases co <;> exact hg2
  | some p =>
    cases co with
    | none => exact hg2
    | some c => exact graphInv_addPostComment _ p c hg2

theorem graphInv_applyRelCalls (calls : List RelCall) :
    ∀ g : RelGraph, GraphInv g → GraphInv (applyRelCalls g calls) := by
  induction calls with
  | nil => intro g hg; exact hg
  | cons call rest ih =>
    intro g hg
    exact ih _ (graphInv_addRelationships g call.hashtag call.profile call.post call.comment hg)

theorem graphInv_empty : GraphInv {} := by
  refine ⟨by simp, by simp, ?_, ?_⟩
  · intro h u
    simp [dlookup]
  · intro p u hlook
    simp [dlookup] at hlook

/-- C6 (corrected): after any sequence of `_add_relationships` calls starting
from the empty graph, `post_to_profile` and `comment_to_post` are
single-valued, the hashtag↔profile maps are mutually consistent, and a
recorded post owner always lists the post in its forward set
(`post_to_profile[p] = u → p ∈ profile_to_posts[u]`). The converse direction
of the profile↔post consistency does not hold: re-attaching a post to a
second profile overwrites `post_to_profile` but leaves the stale forward
edge in the first profile's set. -/
theorem c6_relationship_invariants (calls : List RelCall) :
    (((applyRelCalls {} calls).post_to_profile.map Prod.fst).Nodup) ∧
    (((applyRelCalls {} calls).comment_to_post.map Prod.fst).Nodup) ∧
    (∀ h u, u ∈ (dlookup h (applyRelCalls {} calls).hashtag_to_profiles).getD [] ↔
      h ∈ (dlookup u (applyRelCalls {} calls).profile_to_hashtags).getD []) ∧
    (∀ p u, dlookup p (applyRelCalls {} calls).post_to_profile = some u →
      p ∈ (dlookup u (applyRelCalls {} calls).profile_to_posts).getD []) :=
  graphInv_applyRelCalls calls {} graphInv_empty

/-- C6 witness: attaching hashtag `travel` to profile `A` and post `X` to `A`
yields mutually consistent edges, instantiating the invariant theorem. -/
theorem c6_relationship_invariants_witness :
    ("A" ∈ (dlookup "travel" (applyRelCalls {}
      [{ hashtag := some "travel", profile := some "A" },
       { profile := some "A", post := some "X" }]).hashtag_to_profiles).getD [] ↔
     "travel" ∈ (dlookup "A" (applyRelCalls {}
      [{ hashtag := some "travel", profile := some "A" },
       { profile := some "A", post := some "X" }]).profile_to_hashtags).getD []) ∧
    (dlookup "X" (applyRelCalls {}
      [{ hashtag := some "travel", profile := some "A" },
       { profile := some "A", post := some "X" }]).post_to_profile = some "A") ∧
    "X" ∈ (dlookup "A" (applyRelCalls {}
      [{ hashtag := some "travel", profile := some "A" },
       { profile := some "A", post := some "X" }]).profile_to_posts).getD [] := by
  have h := c6_relationship_invariants
    [{ hashtag := some "travel", profile := some "A" },
     { profile := some "A", post := some "X" }]
  refine ⟨h.2.2.1 "travel" "A", by decide, ?_⟩
  exact h.2.2.2 "X" "A" (by decide)

/-- C6 counterexample: the claim's biconditional `p ∈ profile_to_posts[u] ↔
post_to_profile[p] = u` fails once the same post is attached to two
profiles: after attaching post `X` to profile `A` and then to profile `B`,
`X` is still in `A`'s forward set while `post_to_profile[X] = B ≠ A`. -/
theorem c6_counterexample :
    "X" ∈ (dlookup "A" (applyRelCalls {}
      [{ profile := some "A", post := some "X" },
       { profile := some "B", post := some "X" }]).profile_to_posts).getD [] ∧
    ¬ (dlookup "X" (applyRelCalls {}
      [{ profile := some "A", post := some "X" },
       { profile := some "B", post := some "X" }]).post_to_profile = some "A") := by
  constructor
  · decide
  · decide

/-! ## Account-pool lemmas and claim C10 -/

/-- No account entry with the given username is flagged working. -/
def NoWorkingU (u : String) (accs : List Account) : Prop :=
  ∀ a ∈ accs, a.username = u → a.isWorking = some false

theorem mem_markAccountFailed (accs : List Account) (v : String) (t : ℚ) :
    ∀ a ∈ markAccountFailed accs v t,
      a ∈ accs ∨ (a.username = v ∧ a.isWorking = some false) := by
  induction accs with
  | nil => simp [markAccountFailed]
  | cons b rest ih =>
    unfold markAccountFailed
    by_cases hb : b.username = v
    · rw [if_pos hb]
      intro a ha
      rw [List.mem_cons] at ha
      rcases ha with rfl | ha
      · exact Or.inr ⟨hb, rfl⟩
      · exact Or.inl (List.mem_cons_of_mem _ ha)
    · rw [if_neg hb]
      intro a ha
      rw [List.mem_cons] at ha
      rcases ha with rfl | ha
      · exact Or.inl (List.mem_cons_self _ _)
      · rcases ih a ha with h | h
        · exact Or.inl (List.mem_cons_of_mem _ h)
        · exact Or.inr h

theorem mem_markAccountWorking (accs : List Account) (v : String) :
    ∀ a ∈ markAccountWorking accs v, a ∈ accs ∨ a.username = v := by
  induction accs with
  | nil => simp [markAccountWorking]
  | cons b rest ih =>
    unfold markAccountWorking
    by_cases hb : b.username = v
    · rw [if_pos hb]
      intro a ha
      rw [List.mem_cons] at ha
      rcases ha with rfl | ha
      · exact Or.inr hb
      · exact Or.inl (List.mem_cons_of_mem _ ha)
    · rw [if_neg hb]
      intro a ha
      rw [List.mem_cons] at ha
      rcases ha with rfl | ha
      · exact Or.inl (List.mem_cons_self _ _)
      · rcases ih a ha with h | h
        · exact Or.inl (List.mem_cons_of_mem _ h)
        · exact Or.inr h

theorem markAccountFailed_noWorkingU (accs : List Account) (u : String) (t : ℚ)
    (hnodup : (accs.map Account.username).Nodup) :
    NoWorkingU u (markAccountFailed accs u t) := by
  induction accs with
  | nil => intro a ha; simp [markAccountFailed] at ha
  | cons b rest ih =>
    simp only [List.map_cons, List.nodup_cons] at hnodup
    unfold markAccountFailed
    by_cases hb : b.username = u
    · rw [if_pos hb]
      intro a ha hu
      rw [List.mem_cons] at ha
      rcases ha with rfl | ha
      · rfl
      · exact absurd (hb ▸ hu ▸ List.mem_map_of_mem Account.username ha) hnodup.1
    · rw [if_neg hb]
      intro a ha hu
      rw [List.mem_cons] at ha
      rcases ha with rfl | ha
      · exact absurd hu hb
      · exact ih hnodup.2 a ha hu

theorem noWorkingU_markAccountFailed (u v : String) (t : ℚ) (accs : List Account)
    (h : NoWorkingU u accs) : NoWorkingU u (markAccountFailed accs v t) := by
  intro a ha hu
  rcases mem_markAccountFailed accs v t a ha with hmem | ⟨_, hw⟩
  · exact h a hmem hu
  · exact hw

theorem noWorkingU_markAccountWorking (u v : String) (accs : List Account)
    (hv : v ≠ u) (h : NoWorkingU u accs) : NoWorkingU u (markAccountWorking accs v) := by
  intro a ha hu
  rcases mem_markAccountWorking accs v a ha with hmem | hva
  · exact h a hmem hu
  · exact absurd (hva ▸ hu) hv

theorem noWorkingU_applyAuthOps (u : String) (ops : List AuthOp) :
    ∀ accs : List Account, (∀ op ∈ ops, op ≠ AuthOp.work u) → NoWorkingU u accs →
      NoWorkingU u (applyAuthOps accs ops) := by
  induction ops with
  | nil => intro accs _ h; exact h
  | cons op rest ih =>
    intro accs hops h
    match op with
    | AuthOp.fail v t =>
      exact ih _ (fun o ho => hops o (List.mem_cons_of_mem _ ho))
        (noWorkingU_markAccountFailed u v t accs h)
    | AuthOp.work v =>
      have hv : v ≠ u := by
        intro hvu
        exact hops (AuthOp.work v) (List.mem_cons_self _ _) (by rw [hvu])
      exact ih _ (fun o ho => hops o (List.mem_cons_of_mem _ ho))
        (noWorkingU_markAccountWorking u v accs hv h)

/-- C10: once `mark_account_failed` has flagged an account, it is excluded
from `get_working_accounts` at every later wall-clock time — even long after
the 10-minute cooldown — and through any further pool mutations that do not
`mark_account_working` that username; the cooldown-window test is only ever
applied to accounts whose working flag is (or defaults to) true. -/
theorem c10_failed_account_excluded_until_reset
    (accounts : List Account) (u : String) (t : ℚ) (ops : List AuthOp) (now : ℚ)
    (hnodup : (accounts.map Account.username).Nodup)
    (hnowork : ∀ op ∈ ops, op ≠ AuthOp.work u) :
    (∀ a ∈ getWorkingAccounts (applyAuthOps (markAccountFailed accounts u t) ops) now,
      a.username ≠ u) ∧
    (∀ (accs : List Account) (now' : ℚ), ∀ a ∈ getWorkingAccounts accs now',
      a.isWorking.getD true = true) := by
  have havail : ∀ (accs : List Account) (now' : ℚ), ∀ a ∈ getWorkingAccounts accs now',
      a.isWorking.getD true = true := by
    intro accs now' a ha
    have h := (List.mem_filter.mp ha).2
    unfold accountAvailable at h
    by_cases hw : a.isWorking.getD true = true
    · exact hw
    · rw [if_neg (by simp [hw])] at h
      exact absurd h (by simp)
  refine ⟨?_, havail⟩
  intro a ha hu
  have hP : NoWorkingU u (applyAuthOps (markAccountFailed accounts u t) ops) :=
    noWorkingU_applyAuthOps u ops _ hnowork
      (markAccountFailed_noWorkingU accounts u t hnodup)
  have hmem := (List.mem_filter.mp ha).1
  have hflag := hP a hmem hu
  have := havail _ now a ha
  rw [hflag] at this
  simp at this

/-- C10 witness: a pool with one working account; after `mark_account_failed`
at time 0 it is excluded at time 10000 (well past the 600-second cooldown),
while before failing it was returned. -/
theorem c10_failed_account_excluded_until_reset_witness :
    (([{ username := "alice", isWorking := some true : Account }].map
        Account.username).Nodup) ∧
    getWorkingAccounts [{ username := "alice", isWorking := some true }] 10000 =
      [{ username := "alice", isWorking := some true }] ∧
    (∀ a ∈ getWorkingAccounts
        (applyAuthOps
          (markAccountFailed [{ username := "alice", isWorking := some true }] "alice" 0)
          []) 10000,
      a.username ≠ "alice") := by
  refine ⟨by decide, rfl, ?_⟩
  exact (c10_failed_account_excluded_until_reset
    [{ username := "alice", isWorking := some true }] "alice" 0 [] 10000
    (by decide) (by simp)).1

/-! ## Trace lemmas and claim C5 -/

theorem runTrace_append (cfg : MonitorConfig) (s : MonitorState)
    (p : List NetEvent) (e : NetEvent) :
    runTrace cfg s (p ++ [e]) = step cfg (runTrace cfg s p) e := by
  induction p generalizing s with
  | nil => rfl
  | cons a rest ih =>
    show runTrace cfg (step cfg s a) (rest ++ [e]) = _
    exact ih (step cfg s a)

theorem dlookup_dinsert_isSome (k k' : String) (v : β) (d : List (String × β))
    (h : (dlookup k' d).isSome = true) : (dlookup k' (dinsert k v d)).isSome = true := by
  by_cases hk : k = k'
  · subst hk
    rw [dlookup_dinsert_self]
    rfl
  · rw [dlookup_dinsert_ne _ _ _ _ hk]
    exact h

theorem on_request_will_be_sent_effects (cfg : MonitorConfig) (s : MonitorState)
    (id url : String) (hrun : s.is_running = true) :
    (on_request_will_be_sent cfg s id url).pendingRetrievals = s.pendingRetrievals ∧
    (on_request_will_be_sent cfg s id url).is_running = true ∧
    (on_request_will_be_sent cfg s id url).matched_responses = s.matched_responses ∧
    (∀ id', id' ≠ id →
      stateOf (on_request_will_be_sent cfg s id url) id' = stateOf s id') ∧
    (∀ id', stateOf s id' ≠ none →
      stateOf (on_request_will_be_sent cfg s id url) id' ≠ none) ∧
    (stateOf (on_request_will_be_sent cfg s id url) id = stateOf s id ∨
      stateOf (on_request_will_be_sent cfg s id url) id = some RequestState.INITIATED) := by
  unfold on_request_will_be_sent
  rw [hrun]
  simp only [Bool.not_true, Bool.false_eq_true, if_false]
  by_cases hm : cfg.urlMatches url
  · rw [if_pos hm]
    refine ⟨rfl, rfl, rfl, ?_, ?_, ?_⟩
    · intro id' hne
      unfold stateOf
      rw [dlookup_dinsert_ne _ _ _ _ (fun h => hne h.symm)]
    · intro id' hne
      unfold stateOf at hne ⊢
      by_cases hk : id = id'
      · subst hk
        rw [dlookup_dinsert_self]
        simp
      · rw [dlookup_dinsert_ne _ _ _ _ hk]
        exact hne
    · right
      unfold stateOf
      rw [dlookup_dinsert_self]
      rfl
  · rw [if_neg hm]
    exact ⟨rfl, hrun, rfl, fun _ _ => rfl, fun _ h => h, Or.inl rfl⟩

theorem on_response_received_effects (cfg : MonitorConfig) (s : MonitorState)
    (id : String) (status : Int) (headers : List (String × String)) (url : String)
    (hrun : s.is_running = true) :
    (on_response_received cfg s id status headers url).pendingRetrievals
      = s.pendingRetrievals ∧
    (on_response_received cfg s id status headers url).is_running = true ∧
    (on_response_received cfg s id status headers url).matched_responses
      = s.matched_responses ∧
    (∀ id', id' ≠ id →
      stateOf (on_response_received cfg s id status headers url) id' = stateOf s id') ∧
    (∀ id', stateOf s id' ≠ none →
      stateOf (on_response_received cfg s id status headers url) id' ≠ none) ∧
    (stateOf (on_response_received cfg s id status headers url) id = stateOf s id ∨
      stateOf (on_response_received cfg s id status headers url) id
        = some RequestState.RESPONSE_RECEIVED) := by
  unfold on_response_received
  rw [hrun]
  simp only [Bool.not_true, Bool.false_eq_true, if_false]
  cases hd : dlookup id s.tracked_requests with
  | none => exact ⟨rfl, hrun, rfl, fun _ _ => rfl, fun _ h => h, Or.inl rfl⟩
  | some info =>
    refine ⟨rfl, rfl, rfl, ?_, ?_, ?_⟩
    · intro id' hne
      unfold stateOf
      rw [dlookup_dinsert_ne _ _ _ _ (fun h => hne h.symm)]
    · intro id' hne
      unfold stateOf at hne ⊢
      by_cases hk : id = id'
      · subst hk
        rw [dlookup_dinsert_self]
        simp
      · rw [dlookup_dinsert_ne _ _ _ _ hk]
        exact hne
    · right
      unfold stateOf
      rw [dlookup_dinsert_self]
      simp [responseInfoUpdate_state]

theorem on_loading_failed_effects (s : MonitorState) (id : String)
    (hrun : s.is_running = true) :
    (on_loading_failed s id).pendingRetrievals = s.pendingRetrievals ∧
    (on_loading_failed s id).is_running = true ∧
    (∀ id', id' ≠ id → stateOf (on_loading_failed s id) id' = stateOf s id') ∧
    (∀ id', stateOf s id' ≠ none → stateOf (on_loading_failed s id) id' ≠ none) ∧
    (stateOf (on_loading_failed s id) id = stateOf s id ∨
      stateOf (on_loading_failed s id) id = some RequestState.FAILED) := by
  unfold on_loading_failed
  rw [hrun]
  simp only [Bool.not_true, Bool.false_eq_true, if_false]
  cases hd : dlookup id s.tracked_requests with
  | none => exact ⟨rfl, hrun, fun _ _ => rfl, fun _ h => h, Or.inl rfl⟩
  | some info =>
    refine ⟨rfl, rfl, ?_, ?_, ?_⟩
    · intro id' hne
      unfold stateOf
      rw [dlookup_dinsert_ne _ _ _ _ (fun h => hne h.symm)]
    · intro id' hne
      unfold stateOf at hne ⊢
      by_cases hk : id = id'
      · subst hk
        rw [dlookup_dinsert_self]
        simp
      · rw [dlookup_dinsert_ne _ _ _ _ hk]
        exact hne
    · right
      unfold stateOf
      rw [dlookup_dinsert_self]
      rfl

theorem on_loading_finished_effects (s : MonitorState) (id : String)
    (hrun : s.is_running = true) :
    (dlookup id s.tracked_requests = none → on_loading_finished s id = s) ∧
    (∀ info, dlookup id s.tracked_requests = some info →
      (on_loading_finished s id).pendingRetrievals = s.pendingRetrievals ++ [id] ∧
      (on_loading_finished s id).is_running = true ∧
      stateOf (on_loading_finished s id) id = some RequestState.LOADING_FINISHED ∧
      (∀ id', id' ≠ id → stateOf (on_loading_finished s id) id' = stateOf s id') ∧
      (∀ id', stateOf s id' ≠ none → stateOf (on_loading_finished s id) id' ≠ none)) := by
  unfold on_loading_finished
  rw [hrun]
  simp only [Bool.not_true, Bool.false_eq_true, if_false]
  constructor
  · intro hd
    rw [hd]
  · intro info hd
    rw [hd]
    refine ⟨rfl, rfl, ?_, ?_, ?_⟩
    · unfold stateOf
      rw [dlookup_dinsert_self]
      rfl
    · intro id' hne
      unfold stateOf
      rw [dlookup_dinsert_ne _ _ _ _ (fun h => hne h.symm)]
    · intro id' hne
      unfold stateOf at hne ⊢
      by_cases hk : id = id'
      · subst hk
        rw [dlookup_dinsert_self]
        simp
      · rw [dlookup_dinsert_ne _ _ _ _ hk]
        exact hne

theorem retrieveResponseBody_effects (cfg : MonitorConfig) (s : MonitorState)
    (rid : String) (outcome : Nat → FetchOutcome) (running : Nat → Bool) :
    (retrieveResponseBody cfg s rid outcome running).pendingRetrievals
      = s.pendingRetrievals ∧
    (retrieveResponseBody cfg s rid outcome running).is_running = s.is_running ∧
    (∀ id', id' ≠ rid →
      stateOf (retrieveResponseBody cfg s rid outcome running) id' = stateOf s id') ∧
    (∀ id', stateOf s id' ≠ none →
      stateOf (retrieveResponseBody cfg s rid outcome running) id' ≠ none) ∧
    (stateOf (retrieveResponseBody cfg s rid outcome running) rid = stateOf s rid ∨
      stateOf (retrieveResponseBody cfg s rid outcome running) rid
        = some RequestState.BODY_RETRIEVED) := by
  unfold retrieveResponseBody
  cases hd : dlookup rid s.tracked_requests with
  | none => exact ⟨rfl, rfl, fun _ _ => rfl, fun _ h => h, Or.inl rfl⟩
  | some info =>
    cases hr : runRetry cfg.max_retry_attempts outcome running with
    | aborted n => exact ⟨rfl, rfl, fun _ _ => rfl, fun _ h => h, Or.inl rfl⟩
    | exhausted n => exact ⟨rfl, rfl, fun _ _ => rfl, fun _ h => h, Or.inl rfl⟩
    | succeeded n b =>
      refine ⟨rfl, rfl, ?_, ?_, ?_⟩
      · intro id' hne
        unfold stateOf
        rw [dlookup_dinsert_ne _ _ _ _ (fun h => hne h.symm)]
      · intro id' hne
        unfold stateOf at hne ⊢
        by_cases hk : rid = id'
        · subst hk
          rw [dlookup_dinsert_self]
          simp
        · rw [dlookup_dinsert_ne _ _ _ _ hk]
          exact hne
      · right
        unfold stateOf
        rw [dlookup_dinsert_self]
        rfl

theorem sublist_pair_of_mem {a b : α} {l : List α} (ha : a ∈ l) (hb : b ∈ l)
    (hne : a ≠ b) : [a, b].Sublist l ∨ [b, a].Sublist l := by
  induction l with
  | nil => cases ha
  | cons x xs ih =>
    rcases List.mem_cons.mp ha with rfl | ha'
    · have hb' : b ∈ xs := by
        rcases List.mem_cons.mp hb with h | h
        · exact absurd h.symm hne
        · exact h
      exact Or.inl ((List.singleton_sublist.mpr hb').cons₂ a)
    · rcases List.mem_cons.mp hb with rfl | hb'
      · exact Or.inr ((List.singleton_sublist.mpr ha').cons₂ b)
      · rcases ih ha' hb' with h | h
        · exact Or.inl (h.cons x)
        · exact Or.inr (h.cons x)

theorem eventOk_of_pairwise_mem {l : List NetEvent} {a b : NetEvent}
    (hp : l.Pairwise (fun x y => eventOk x y = true))
    (ha : a ∈ l) (hb : b ∈ l) (hne : a ≠ b) :
    eventOk a b = true ∨ eventOk b a = true := by
  rcases sublist_pair_of_mem ha hb hne with h | h
  · exact Or.inl (List.pairwise_iff_forall_sublist.mp hp h)
  · exact Or.inr (List.pairwise_iff_forall_sublist.mp hp h)

theorem not_finished_and_failed (p : List NetEvent) (id : String)
    (hp : p.Pairwise (fun a b => eventOk a b = true))
    (h1 : NetEvent.loadingFinished id ∈ p) (h2 : NetEvent.loadingFailed id ∈ p) :
    False := by
  have hne : NetEvent.loadingFinished id ≠ NetEvent.loadingFailed id := by
    intro h
    exact NetEvent.noConfusion h
  rcases eventOk_of_pairwise_mem hp h1 h2 hne with h | h <;>
    simp [eventOk, NetEvent.eid, NetEvent.isWBS, NetEvent.isRR,
      NetEvent.isLifecycleEnd] at h

theorem eventOk_lifecycleEnd_false (a b : NetEvent) (heid : a.eid = b.eid)
    (ha : a.isLifecycleEnd = true)
    (hb : b.isWBS = true ∨ b.isRR = true ∨ b.isLifecycleEnd = true) :
    eventOk a b = false := by
  unfold eventOk
  rw [heid, ha]
  simp only [beq_self_eq_true, Bool.not_true, Bool.false_or]
  rcases hb with h | h | h <;> simp [h]

theorem traceInv_step (cfg : MonitorConfig) (p : List NetEvent) (s : MonitorState)
    (e : NetEvent) (hinv : TraceInv p s)
    (hok : ∀ a ∈ p, eventOk a e = true) :
    TraceInv (p ++ [e]) (step cfg s e) := by
  obtain ⟨hrun, hpf, hpc, htrk, hbr, hfl⟩ := hinv
  cases e with
  | requestWillBeSent id url =>
    show TraceInv (p ++ [NetEvent.requestWillBeSent id url])
      (on_request_will_be_sent cfg s id url)
    obtain ⟨hpd, hrn, _hm, hne, _hsome, hid⟩ :=
      on_request_will_be_sent_effects cfg s id url hrun
    refine ⟨hrn, ?_, ?_, ?_, ?_, ?_⟩
    · intro id0 h0
      rw [hpd] at h0
      exact List.mem_append_left _ (hpf id0 h0)
    · intro id0
      rw [hpd]
      exact hpc id0
    · intro id0 h0
      rw [hpd] at h0
      by_cases hket : id0 = id
      · subst hket
        rcases hid with h | h
        · rw [h]
          exact htrk id0 h0
        · rw [h]
          simp
      · rw [hne id0 hket]
        exact htrk id0 h0
    · intro id0 hst
      by_cases hket : id0 = id
      · subst hket
        rcases hid with h | h
        · rw [h] at hst
          obtain ⟨hin, hout⟩ := hbr id0 hst
          exact ⟨List.mem_append_left _ hin, by rw [hpd]; exact hout⟩
        · rw [h] at hst
          simp at hst
      · rw [hne id0 hket] at hst
        obtain ⟨hin, hout⟩ := hbr id0 hst
        exact ⟨List.mem_append_left _ hin, by rw [hpd]; exact hout⟩
    · intro id0 hst
      by_cases hket : id0 = id
      · subst hket
        rcases hid with h | h
        · rw [h] at hst
          exact List.mem_append_left _ (hfl id0 hst)
        · rw [h] at hst
          simp at hst
      · rw [hne id0 hket] at hst
        exact List.mem_append_left _ (hfl id0 hst)
  | responseReceived id status headers url =>
    show TraceInv (p ++ [NetEvent.responseReceived id status headers url])
      (on_response_received cfg s id status headers url)
    obtain ⟨hpd, hrn, _hm, hne, _hsome, hid⟩ :=
      on_response_received_effects cfg s id status headers url hrun
    refine ⟨hrn, ?_, ?_, ?_, ?_, ?_⟩
    · intro id0 h0
      rw [hpd] at h0
      exact List.mem_append_left _ (hpf id0 h0)
    · intro id0
      rw [hpd]
      exact hpc id0
    · intro id0 h0
      rw [hpd] at h0
      by_cases hket : id0 = id
      · subst hket
        rcases hid with h | h
        · rw [h]
          exact htrk id0 h0
        · rw [h]
          simp
      · rw [hne id0 hket]
        exact htrk id0 h0
    · intro id0 hst
      by_cases hket : id0 = id
      · subst hket
        rcases hid with h | h
        · rw [h] at hst
          obtain ⟨hin, hout⟩ := hbr id0 hst
          exact ⟨List.mem_append_left _ hin, by rw [hpd]; exact hout⟩
        · rw [h] at hst
          simp at hst
      · rw [hne id0 hket] at hst
        obtain ⟨hin, hout⟩ := hbr id0 hst
        exact ⟨List.mem_append_left _ hin, by rw [hpd]; exact hout⟩
    · intro id0 hst
      by_cases hket : id0 = id
      · subst hket
        rcases hid with h | h
        · rw [h] at hst
          exact List.mem_append_left _ (hfl id0 hst)
        · rw [h] at hst
          simp at hst
      · rw [hne id0 hket] at hst
        exact List.mem_append_left _ (hfl id0 hst)
  | dataReceived id =>
    exact ⟨hrun, fun id0 h0 => List.mem_append_left _ (hpf id0 h0), hpc, htrk,
      fun id0 hst => ⟨List.mem_append_left _ (hbr id0 hst).1, (hbr id0 hst).2⟩,
      fun id0 hst => List.mem_append_left _ (hfl id0 hst)⟩
  | loadingFinished id =>
    show TraceInv (p ++ [NetEvent.loadingFinished id]) (on_loading_finished s id)
    obtain ⟨hnone, hsome⟩ := on_loading_finished_effects s id hrun
    cases hd : dlookup id s.tracked_requests with
    | none =>
      rw [hnone hd]
      exact ⟨hrun, fun id0 h0 => List.mem_append_left _ (hpf id0 h0), hpc, htrk,
        fun id0 hst => ⟨List.mem_append_left _ (hbr id0 hst).1, (hbr id0 hst).2⟩,
        fun id0 hst => List.mem_append_left _ (hfl id0 hst)⟩
    | some info =>
      obtain ⟨hpd, hrn, hstid, hstne, _hsome2⟩ := hsome info hd
      have hnotp : id ∉ s.pendingRetrievals := by
        intro hmem2
        have h1 := hpf id hmem2
        have h2 := hok _ h1
        have h3 := eventOk_lifecycleEnd_false (NetEvent.loadingFinished id)
          (NetEvent.loadingFinished id) rfl rfl (Or.inr (Or.inr rfl))
        rw [h3] at h2
        exact absurd h2 (by simp)
      refine ⟨hrn, ?_, ?_, ?_, ?_, ?_⟩
      · intro id0 h0
        rw [hpd] at h0
        rcases List.mem_append.mp h0 with h0 | h0
        · exact List.mem_append_left _ (hpf id0 h0)
        · have : id0 = id := by simpa using h0
          subst this
          exact List.mem_append_right _ (by simp)
      · intro id0
        rw [hpd, List.count_append]
        by_cases hket : id0 = id
        · subst hket
          have h0 : List.count id0 s.pendingRetrievals = 0 := List.count_eq_zero.mpr hnotp
          have h1 : List.count id0 [id0] = 1 := by simp
          omega
        · have h1 : List.count id0 [id] = 0 := by
            rw [List.count_eq_zero]
            simp [hket]
          have := hpc id0
          omega
      · intro id0 h0
        rw [hpd] at h0
        by_cases hket : id0 = id
        · subst hket
          rw [hstid]
          simp
        · rcases List.mem_append.mp h0 with h0 | h0
          · rw [hstne id0 hket]
            exact htrk id0 h0
          · exact absurd (by simpa using h0) hket
      · intro id0 hst
        by_cases hket : id0 = id
        · subst hket
          rw [hstid] at hst
          simp at hst
        · rw [hstne id0 hket] at hst
          obtain ⟨hin, hout⟩ := hbr id0 hst
          refine ⟨List.mem_append_left _ hin, ?_⟩
          rw [hpd]
          intro hmm
          rcases List.mem_append.mp hmm with hmm | hmm
          · exact hout hmm
          · exact hket (by simpa using hmm)
      · intro id0 hst
        by_cases hket : id0 = id
        · subst hket
          rw [hstid] at hst
          simp at hst
        · rw [hstne id0 hket] at hst
          exact List.mem_append_left _ (hfl id0 hst)
  | loadingFailed id =>
    show TraceInv (p ++ [NetEvent.loadingFailed id]) (on_loading_failed s id)
    obtain ⟨hpd, hrn, hne, _hsome, hid⟩ := on_loading_failed_effects s id hrun
    refine ⟨hrn, ?_, ?_, ?_, ?_, ?_⟩
    · intro id0 h0
      rw [hpd] at h0
      exact List.mem_append_left _ (hpf id0 h0)
    · intro id0
      rw [hpd]
      exact hpc id0
    · intro id0 h0
      rw [hpd] at h0
      by_cases hket : id0 = id
      · subst hket
        rcases hid with h | h
        · rw [h]
          exact htrk id0 h0
        · rw [h]
          simp
      · rw [hne id0 hket]
        exact htrk id0 h0
    · intro id0 hst
      by_cases hket : id0 = id
      · subst hket
        rcases hid with h | h
        · rw [h] at hst
          obtain ⟨hin, hout⟩ := hbr id0 hst
          exact ⟨List.mem_append_left _ hin, by rw [hpd]; exact hout⟩
        · rw [h] at hst
          simp at hst
      · rw [hne id0 hket] at hst
        obtain ⟨hin, hout⟩ := hbr id0 hst
        exact ⟨List.mem_append_left _ hin, by rw [hpd]; exact hout⟩
    · intro id0 hst
      by_cases hket : id0 = id
      · subst hket
        exact List.mem_append_right _ (by simp)
      · rw [hne id0 hket] at hst
        exact List.mem_append_left _ (hfl id0 hst)
  | retrievalRun id outcome running =>
    show TraceInv (p ++ [NetEvent.retrievalRun id outcome running])
      (if id ∈ s.pendingRetrievals then
        retrieveResponseBody cfg
          { s with pendingRetrievals := s.pendingRetrievals.erase id } id outcome running
      else s)
    by_cases hmem : id ∈ s.pendingRetrievals
    · rw [if_pos hmem]
      obtain ⟨hpd, hrn, hstne, _hstsome, hsm⟩ :=
        retrieveResponseBody_effects cfg
          { s with pendingRetrievals := s.pendingRetrievals.erase id } id outcome running
      refine ⟨by rw [hrn]; exact hrun, ?_, ?_, ?_, ?_, ?_⟩
      · intro id0 h0
        rw [hpd] at h0
        exact List.mem_append_left _ (hpf id0 (List.mem_of_mem_erase h0))
      · intro id0
        rw [hpd]
        calc List.count id0 (s.pendingRetrievals.erase id)
            ≤ List.count id0 s.pendingRetrievals :=
              (List.erase_sublist id s.pendingRetrievals).count_le id0
          _ ≤ 1 := hpc id0
      · intro id0 h0
        rw [hpd] at h0
        have h0' := List.mem_of_mem_erase h0
        by_cases hket : id0 = id
        · subst hket
          rcases hsm with hu | hb
          · rw [hu]
            exact htrk id0 h0'
          · rw [hb]
            simp
        · rw [hstne id0 hket]
          exact htrk id0 h0'
      · intro id0 hst
        by_cases hket : id0 = id
        · subst hket
          refine ⟨List.mem_append_left _ (hpf id0 hmem), ?_⟩
          rw [hpd]
          have hc := hpc id0
          have h1 : 1 ≤ List.count id0 s.pendingRetrievals :=
            List.one_le_count_iff.mpr hmem
          have h2 := List.count_erase_self id0 s.pendingRetrievals
          intro hmm
          have h3 : 1 ≤ List.count id0 (s.pendingRetrievals.erase id0) :=
            List.one_le_count_iff.mpr hmm
          omega
        · rw [hstne id0 hket] at hst
          obtain ⟨hin, hout⟩ := hbr id0 hst
          refine ⟨List.mem_append_left _ hin, ?_⟩
          rw [hpd]
          intro hmm
          exact hout (List.mem_of_mem_erase hmm)
      · intro id0 hst
        by_cases hket : id0 = id
        · subst hket
          rcases hsm with hu | hb
          · rw [hu] at hst
            exact List.mem_append_left _ (hfl id0 hst)
          · rw [hb] at hst
            simp at hst
        · rw [hstne id0 hket] at hst
          exact List.mem_append_left _ (hfl id0 hst)
    · rw [if_neg hmem]
      exact ⟨hrun, fun id0 h0 => List.mem_append_left _ (hpf id0 h0), hpc, htrk,
        fun id0 hst => ⟨List.mem_append_left _ (hbr id0 hst).1, (hbr id0 hst).2⟩,
        fun id0 hst => List.mem_append_left _ (hfl id0 hst)⟩

theorem traceInv_runTrace (cfg : MonitorConfig) (p : List NetEvent)
    (hwf : p.Pairwise (fun a b => eventOk a b = true)) :
    TraceInv p (runTrace cfg {} p) := by
  induction p using List.reverseRecOn with
  | nil =>
    refine ⟨rfl, ?_, ?_, ?_, ?_, ?_⟩
    · intro id h0
      exact absurd h0 (List.not_mem_nil id)
    · intro id
      show List.count id ([] : List String) ≤ 1
      simp
    · intro id h0
      exact absurd h0 (List.not_mem_nil id)
    · intro id hst
      have hst' : (none : Option RequestState) = some RequestState.BODY_RETRIEVED := hst
      simp at hst'
    · intro id hst
      have hst' : (none : Option RequestState) = some RequestState.FAILED := hst
      simp at hst'
  | append_singleton p e ih =>
    rw [List.pairwise_append] at hwf
    obtain ⟨hp, _, hcross⟩ := hwf
    rw [runTrace_append]
    exact traceInv_step cfg p _ e (ih hp) (fun a ha => hcross a ha e (by simp))

/-- C5: over every well-formed CDP event trace (per request id: at most one
request-initiated event and always first; at most one of loading-finished /
loading-failed, with no response-headers or second final notification after
it), the per-request state machine respects the spec's discipline: (1) a
body-retrieval task only runs for a request id after a loading-finished
event for that id was processed (and the request is tracked), and (2) once a
request id is in a terminal state (BODY_RETRIEVED or FAILED) no subsequent
event or retrieval moves it to a different state. -/
theorem c5_state_machine (cfg : MonitorConfig) (p : List NetEvent) (e : NetEvent)
    (q : List NetEvent)
    (hwf : (p ++ e :: q).Pairwise (fun a b => eventOk a b = true)) :
    (∀ id outcome running, e = NetEvent.retrievalRun id outcome running →
      id ∈ (runTrace cfg {} p).pendingRetrievals →
      NetEvent.loadingFinished id ∈ p ∧ stateOf (runTrace cfg {} p) id ≠ none) ∧
    (∀ id st, stateOf (runTrace cfg {} p) id = some st → st.isTerminal = true →
      stateOf (runTrace cfg {} (p ++ [e])) id = some st) := by
  rw [List.pairwise_append] at hwf
  obtain ⟨hp, _, hcross⟩ := hwf
  have hok : ∀ a ∈ p, eventOk a e = true := fun a ha =>
    hcross a ha e (List.mem_cons_self _ _)
  obtain ⟨hrun, hpf, hpc, htrk, hbr, hfl⟩ := traceInv_runTrace cfg p hp
  constructor
  · intro id outcome running _he hid
    exact ⟨hpf id hid, htrk id hid⟩
  · intro id st hst hterm
    rw [runTrace_append]
    cases st <;> simp only [RequestState.isTerminal] at hterm
    case INITIATED => exact absurd hterm (by simp)
    case RESPONSE_RECEIVED => exact absurd hterm (by simp)
    case LOADING_FINISHED => exact absurd hterm (by simp)
    case FAILED =>
      have hev := hfl id hst
      cases e with
      | requestWillBeSent id' url =>
        show stateOf (on_request_will_be_sent cfg (runTrace cfg {} p) id' url) id
          = some RequestState.FAILED
        by_cases hket : id' = id
        · subst hket
          have h3 := eventOk_lifecycleEnd_false (NetEvent.loadingFailed id')
            (NetEvent.requestWillBeSent id' url) rfl rfl (Or.inl rfl)
          have h2 := hok _ hev
          rw [h3] at h2
          exact absurd h2 (by simp)
        · obtain ⟨_, _, _, hne, _, _⟩ :=
            on_request_will_be_sent_effects cfg (runTrace cfg {} p) id' url hrun
          rw [hne id (fun h => hket h.symm)]
          exact hst
      | responseReceived id' status headers url =>
        show stateOf (on_response_received cfg (runTrace cfg {} p) id' status headers url) id
          = some RequestState.FAILED
        by_cases hket : id' = id
        · subst hket
          have h3 := eventOk_lifecycleEnd_false (NetEvent.loadingFailed id')
            (NetEvent.responseReceived id' status headers url) rfl rfl (Or.inr (Or.inl rfl))
          have h2 := hok _ hev
          rw [h3] at h2
          exact absurd h2 (by simp)
        · obtain ⟨_, _, _, hne, _, _⟩ :=
            on_response_received_effects cfg (runTrace cfg {} p) id' status headers url hrun
          rw [hne id (fun h => hket h.symm)]
          exact hst
      | dataReceived id' => exact hst
      | loadingFinished id' =>
        show stateOf (on_loading_finished (runTrace cfg {} p) id') id
          = some RequestState.FAILED
        by_cases hket : id' = id
        · subst hket
          have h3 := eventOk_lifecycleEnd_false (NetEvent.loadingFailed id')
            (NetEvent.loadingFinished id') rfl rfl (Or.inr (Or.inr rfl))
          have h2 := hok _ hev
          rw [h3] at h2
          exact absurd h2 (by simp)
        · obtain ⟨hnone, hsome⟩ := on_loading_finished_effects (runTrace cfg {} p) id' hrun
          cases hd : dlookup id' (runTrace cfg {} p).tracked_requests with
          | none =>
            rw [hnone hd]
            exact hst
          | some info =>
            obtain ⟨_, _, _, hstne, _⟩ := hsome info hd
            rw [hstne id (fun h => hket h.symm)]
            exact hst
      | loadingFailed id' =>
        show stateOf (on_loading_failed (runTrace cfg {} p) id') id
          = some RequestState.FAILED
        by_cases hket : id' = id
        · subst hket
          have h3 := eventOk_lifecycleEnd_false (NetEvent.loadingFailed id')
            (NetEvent.loadingFailed id') rfl rfl (Or.inr (Or.inr rfl))
          have h2 := hok _ hev
          rw [h3] at h2
          exact absurd h2 (by simp)
        · obtain ⟨_, _, hne, _, _⟩ := on_loading_failed_effects (runTrace cfg {} p) id' hrun
          rw [hne id (fun h => hket h.symm)]
          exact hst
      | retrievalRun id' outcome running =>
        show stateOf (if id' ∈ (runTrace cfg {} p).pendingRetrievals then
            retrieveResponseBody cfg
              { runTrace cfg {} p with
                pendingRetrievals := (runTrace cfg {} p).pendingRetrievals.erase id' }
              id' outcome running
          else runTrace cfg {} p) id = some RequestState.FAILED
        by_cases hmem : id' ∈ (runTrace cfg {} p).pendingRetrievals
        · rw [if_pos hmem]
          by_cases hket : id' = id
          · subst hket
            exact absurd (not_finished_and_failed p id' hp (hpf id' hmem) hev) (fun h => h)
          · obtain ⟨_, _, hstne, _, _⟩ := retrieveResponseBody_effects cfg
              { runTrace cfg {} p with
                pendingRetrievals := (runTrace cfg {} p).pendingRetrievals.erase id' }
              id' outcome running
            rw [hstne id (fun h => hket h.symm)]
            exact hst
        · rw [if_neg hmem]
          exact hst
    case BODY_RETRIEVED =>
      obtain ⟨hev, hnp⟩ := hbr id hst
      cases e with
      | requestWillBeSent id' url =>
        show stateOf (on_request_will_be_sent cfg (runTrace cfg {} p) id' url) id
          = some RequestState.BODY_RETRIEVED
        by_cases hket : id' = id
        · subst hket
          have h3 := eventOk_lifecycleEnd_false (NetEvent.loadingFinished id')
            (NetEvent.requestWillBeSent id' url) rfl rfl (Or.inl rfl)
          have h2 := hok _ hev
          rw [h3] at h2
          exact absurd h2 (by simp)
        · obtain ⟨_, _, _, hne, _, _⟩ :=
            on_request_will_be_sent_effects cfg (runTrace cfg {} p) id' url hrun
          rw [hne id (fun h => hket h.symm)]
          exact hst
      | responseReceived id' status headers url =>
        show stateOf (on_response_received cfg (runTrace cfg {} p) id' status headers url) id
          = some RequestState.BODY_RETRIEVED
        by_cases hket : id' = id
        · subst hket
          have h3 := eventOk_lifecycleEnd_false (NetEvent.loadingFinished id')
            (NetEvent.responseReceived id' status headers url) rfl rfl (Or.inr (Or.inl rfl))
          have h2 := hok _ hev
          rw [h3] at h2
          exact absurd h2 (by simp)
        · obtain ⟨_, _, _, hne, _, _⟩ :=
            on_response_received_effects cfg (runTrace cfg {} p) id' status headers url hrun
          rw [hne id (fun h => hket h.symm)]
          exact hst
      | dataReceived id' => exact hst
      | loadingFinished id' =>
        show stateOf (on_loading_finished (runTrace cfg {} p) id') id
          = some RequestState.BODY_RETRIEVED
        by_cases hket : id' = id
        · subst hket
          have h3 := eventOk_lifecycleEnd_false (NetEvent.loadingFinished id')
            (NetEvent.loadingFinished id') rfl rfl (Or.inr (Or.inr rfl))
          have h2 := hok _ hev
          rw [h3] at h2
          exact absurd h2 (by simp)
        · obtain ⟨hnone, hsome⟩ := on_loading_finished_effects (runTrace cfg {} p) id' hrun
          cases hd : dlookup id' (runTrace cfg {} p).tracked_requests with
          | none =>
            rw [hnone hd]
            exact hst
          | some info =>
            obtain ⟨_, _, _, hstne, _⟩ := hsome info hd
            rw [hstne id (fun h => hket h.symm)]
            exact hst
      | loadingFailed id' =>
        show stateOf (on_loading_failed (runTrace cfg {} p) id') id
          = some RequestState.BODY_RETRIEVED
        by_cases hket : id' = id
        · subst hket
          have h3 := eventOk_lifecycleEnd_false (NetEvent.loadingFinished id')
            (NetEvent.loadingFailed id') rfl rfl (Or.inr (Or.inr rfl))
          have h2 := hok _ hev
          rw [h3] at h2
          exact absurd h2 (by simp)
        · obtain ⟨_, _, hne, _, _⟩ := on_loading_failed_effects (runTrace cfg {} p) id' hrun
          rw [hne id (fun h => hket h.symm)]
          exact hst
      | retrievalRun id' outcome running =>
        show stateOf (if id' ∈ (runTrace cfg {} p).pendingRetrievals then
            retrieveResponseBody cfg
              { runTrace cfg {} p with
                pendingRetrievals := (runTrace cfg {} p).pendingRetrievals.erase id' }
              id' outcome running
          else runTrace cfg {} p) id = some RequestState.BODY_RETRIEVED
        by_cases hmem : id' ∈ (runTrace cfg {} p).pendingRetrievals
        · rw [if_pos hmem]
          by_cases hket : id' = id
          · subst hket
            exact absurd hmem hnp
          · obtain ⟨_, _, hstne, _, _⟩ := retrieveResponseBody_effects cfg
              { runTrace cfg {} p with
                pendingRetrievals := (runTrace cfg {} p).pendingRetrievals.erase id' }
              id' outcome running
            rw [hstne id (fun h => hket h.symm)]
            exact hst
        · rw [if_neg hmem]
          exact hst

/-- C5 witness: on the concrete well-formed trace request-initiated →
response-received → loading-failed, request `r1` ends FAILED, and the
terminal state survives a subsequent event (here a data-received
notification), instantiating the state-machine theorem. -/
theorem c5_state_machine_witness :
    ([NetEvent.requestWillBeSent "r1" "u",
      NetEvent.responseReceived "r1" 200 [] "u",
      NetEvent.loadingFailed "r1"]
        ++ NetEvent.dataReceived "r1" :: ([] : List NetEvent)).Pairwise
      (fun a b => eventOk a b = true) ∧
    stateOf (runTrace { urlMatches := fun _ => true } {}
      [NetEvent.requestWillBeSent "r1" "u",
       NetEvent.responseReceived "r1" 200 [] "u",
       NetEvent.loadingFailed "r1"]) "r1" = some RequestState.FAILED ∧
    stateOf (runTrace { urlMatches := fun _ => true } {}
      ([NetEvent.requestWillBeSent "r1" "u",
        NetEvent.responseReceived "r1" 200 [] "u",
        NetEvent.loadingFailed "r1"] ++ [NetEvent.dataReceived "r1"])) "r1"
      = some RequestState.FAILED := by
  have hwf : ([NetEvent.requestWillBeSent "r1" "u",
      NetEvent.responseReceived "r1" 200 [] "u",
      NetEvent.loadingFailed "r1"]
        ++ NetEvent.dataReceived "r1" :: ([] : List NetEvent)).Pairwise
      (fun a b => eventOk a b = true) := by decide
  have hst : stateOf (runTrace { urlMatches := fun _ => true } {}
      [NetEvent.requestWillBeSent "r1" "u",
       NetEvent.responseReceived "r1" 200 [] "u",
       NetEvent.loadingFailed "r1"]) "r1" = some RequestState.FAILED := rfl
  exact ⟨hwf, hst,
    (c5_state_machine { urlMatches := fun _ => true }
      [NetEvent.requestWillBeSent "r1" "u",
       NetEvent.responseReceived "r1" 200 [] "u",
       NetEvent.loadingFailed "r1"]
      (NetEvent.dataReceived "r1") [] hwf).2 "r1" RequestState.FAILED hst rfl⟩

end TikTokScraper
